import Mathlib

/-!
Startup security gate and wallet registry of `libwallet.MultiWallet`.

A shallow embedding of `libwallet/multiwallet.go`.  The persistent store
(`storm`), the password hash (`bcrypt`) and the chain backends are outside
the file: the store is a record of the three slots the security gate uses,
each store operation takes the outcome the environment gives it during the
call, and the password hash is a parameter.
-/

namespace Libwallet

/-- Go `[]byte`. -/
abbrev Bytes := List UInt8

/-- Error values that reach the callers of the functions embedded here. -/
inductive Error where
  /-- `errors.E(ErrInvalidPassphrase)`. -/
  | ErrInvalidPassphrase
  /-- `errors.New(ErrSyncAlreadyInProgress)`. -/
  | ErrSyncAlreadyInProgress
  /-- `storm.ErrNotFound`. -/
  | ErrNotFound
  /-- Any other error answered by the store. -/
  | storm (code : Nat)
  /-- An error answered by the `bcrypt` package. -/
  | bcrypt (code : Nat)
  /-- An error answered by a wallet backend. -/
  | wallet (code : Nat)
  /-- `errors.E(ErrReservedWalletName)`. -/
  | ErrReservedWalletName
  /-- `errors.New(ErrInvalid)`. -/
  | ErrInvalid
  /-- `fmt.Errorf("missing wallet database file: %v", wallet.DataDir())`. -/
  | missingWalletDatabaseFile
deriving DecidableEq, Repr

/-- The slots of the store that the startup security gate reads and writes:
`walletsMetadataBucketName/walletstartupPassphraseField` and the user
configuration keys `IsStartupSecuritySetConfigKey` and
`StartupSecurityTypeConfigKey`.  `none` is a key that is not present. -/
structure DB where
  startupPassphraseHash : Option Bytes
  isStartupSecuritySet : Option Bool
  startupSecurityType : Option Int
deriving DecidableEq, Repr

/-- The store of a fresh installation: nothing has been written. -/
def DB.empty : DB := ⟨none, none, none⟩

/-- What the environment does during one call: the salt drawn by the
password hash and, for each store operation the call may perform, whether
it works (`none`) or fails with a store error code. -/
structure Env where
  salt : Nat
  /-- The lookup of the passphrase hash. -/
  readHash : Option Nat
  /-- The write or the deletion of the passphrase hash. -/
  writeHash : Option Nat
  /-- The write of the "security enabled" flag. -/
  writeFlag : Option Nat
  /-- The write or the deletion of the security-type tag. -/
  writeType : Option Nat
deriving DecidableEq, Repr

/-- The environment in which every store operation works. -/
def Env.ok (salt : Nat) : Env := ⟨salt, none, none, none, none⟩

/-- The two functions of `golang.org/x/crypto/bcrypt` that the gate calls. -/
structure Bcrypt where
  /-- The salt drawn, the password and the cost. -/
  GenerateFromPassword : Nat → Bytes → Int → Except Error Bytes
  CompareHashAndPassword : Bytes → Bytes → Option Error

/-- `mw.params.DB.Get(walletsMetadataBucketName, walletstartupPassphraseField, &out)`:
the error and the value left in `out`. -/
def DB.Get (fault : Option Nat) (db : DB) : Option Error × Option Bytes × DB :=
  match fault with
  | some code => (some (Error.storm code), none, db)
  | none =>
    match db.startupPassphraseHash with
    | none => (some Error.ErrNotFound, none, db)
    | some h => (none, some h, db)

/-- `mw.params.DB.Set(walletsMetadataBucketName, walletstartupPassphraseField, hash)`. -/
def DB.Set (fault : Option Nat) (db : DB) (hash : Bytes) : Option Error × DB :=
  match fault with
  | some code => (some (Error.storm code), db)
  | none => (none, { db with startupPassphraseHash := some hash })

/-- `mw.params.DB.Delete(walletsMetadataBucketName, walletstartupPassphraseField)`.
The store has no record of whether the metadata bucket was ever written:
where storm answers an error for a bucket that does not exist, that is one
of the failures the environment may give, and the success listed here for a
store without a hash covers more than storm allows. -/
def DB.Delete (fault : Option Nat) (db : DB) : Option Error × DB :=
  match fault with
  | some code => (some (Error.storm code), db)
  | none => (none, { db with startupPassphraseHash := none })

/-- A user configuration key together with a value of the type stored under
it, as passed to `SaveUserConfigValue`. -/
inductive ConfigEntry where
  /-- `IsStartupSecuritySetConfigKey` with a `bool`. -/
  | IsStartupSecuritySet (value : Bool)
  /-- `StartupSecurityTypeConfigKey` with an `int32`. -/
  | StartupSecurityType (value : Int)
deriving DecidableEq, Repr

/-- The user configuration keys of the startup security gate. -/
inductive ConfigKey where
  | IsStartupSecuritySetConfigKey
  | StartupSecurityTypeConfigKey
deriving DecidableEq, Repr

/-- Modelled from the spec: `MultiWallet.SaveUserConfigValue` is not among the
sources.  It writes one value of the global metadata to the store.  Its call
sites use it as a statement, so a write that fails leaves the value as it
was and is not reported to the caller. -/
def SaveUserConfigValue (fault : Option Nat) (db : DB) (entry : ConfigEntry) : DB :=
  match fault with
  | some _ => db
  | none =>
    match entry with
    | ConfigEntry.IsStartupSecuritySet value => { db with isStartupSecuritySet := some value }
    | ConfigEntry.StartupSecurityType value => { db with startupSecurityType := some value }

/-- Modelled from the spec: `MultiWallet.DeleteUserConfigValueForKey` is not
among the sources.  It removes one value of the global metadata from the
store; like `SaveUserConfigValue` it is called as a statement. -/
def DeleteUserConfigValueForKey (fault : Option Nat) (db : DB) (key : ConfigKey) : DB :=
  match fault with
  | some _ => db
  | none =>
    match key with
    | ConfigKey.IsStartupSecuritySetConfigKey => { db with isStartupSecuritySet := none }
    | ConfigKey.StartupSecurityTypeConfigKey => { db with startupSecurityType := none }

/-- Modelled from the spec: `MultiWallet.ReadBoolConfigValueForKey` is not among
the sources.  Called with `IsStartupSecuritySetConfigKey`, the one boolean
key read here, it answers the persisted "security enabled" flag, or the
default when the key is not present. -/
def ReadBoolConfigValueForKey (db : DB) (defaultValue : Bool) : Bool :=
  match db.isStartupSecuritySet with
  | some value => value
  | none => defaultValue

/-- Modelled from the spec: `MultiWallet.ReadInt32ConfigValueForKey` is not
among the sources.  Called with `StartupSecurityTypeConfigKey` it answers the
persisted security-type tag, or the default when the key is not present. -/
def ReadInt32ConfigValueForKey (db : DB) (defaultValue : Int) : Int :=
  match db.startupSecurityType with
  | some value => value
  | none => defaultValue

/-- `bcrypt.DefaultCost`. -/
def DefaultCost : Int := 10

/-- `MultiWallet.VerifyStartupPassphrase`, on the receiver's store. -/
def VerifyStartupPassphrase (bc : Bcrypt) (env : Env) (db : DB)
    (startupPassphrase : Bytes) : Option Error × DB :=
  match DB.Get env.readHash db with
  | (err, startupPassphraseHash, db) =>
    if err ≠ none ∧ err ≠ some Error.ErrNotFound then (err, db)
    else
      match startupPassphraseHash with
      | none =>
        -- startup passphrase was not previously set
        if startupPassphrase.length > 0 then (some Error.ErrInvalidPassphrase, db)
        else (none, db)
      | some hash =>
        -- startup passphrase was set, verify
        match bc.CompareHashAndPassword hash startupPassphrase with
        | some _ => (some Error.ErrInvalidPassphrase, db)
        | none => (none, db)

/-- `MultiWallet.RemoveStartupPassphrase`. -/
def RemoveStartupPassphrase (bc : Bcrypt) (env : Env) (db : DB)
    (oldPassphrase : Bytes) : Option Error × DB :=
  match VerifyStartupPassphrase bc env db oldPassphrase with
  | (some err, db) => (some err, db)
  | (none, db) =>
    match DB.Delete env.writeHash db with
    | (some err, db) => (some err, db)
    | (none, db) =>
      let db := SaveUserConfigValue env.writeFlag db (ConfigEntry.IsStartupSecuritySet false)
      let db := DeleteUserConfigValueForKey env.writeType db ConfigKey.StartupSecurityTypeConfigKey
      (none, db)

/-- `MultiWallet.ChangeStartupPassphrase`. -/
def ChangeStartupPassphrase (bc : Bcrypt) (env : Env) (db : DB)
    (oldPassphrase newPassphrase : Bytes) (passphraseType : Int) : Option Error × DB :=
  if newPassphrase.length = 0 then RemoveStartupPassphrase bc env db oldPassphrase
  else
    match VerifyStartupPassphrase bc env db oldPassphrase with
    | (some err, db) => (some err, db)
    | (none, db) =>
      match bc.GenerateFromPassword env.salt newPassphrase DefaultCost with
      | Except.error err => (some err, db)
      | Except.ok startupPassphraseHash =>
        match DB.Set env.writeHash db startupPassphraseHash with
        | (some err, db) => (some err, db)
        | (none, db) =>
          let db := SaveUserConfigValue env.writeFlag db (ConfigEntry.IsStartupSecuritySet true)
          let db := SaveUserConfigValue env.writeType db (ConfigEntry.StartupSecurityType passphraseType)
          (none, db)

/-- `MultiWallet.SetStartupPassphrase`. -/
def SetStartupPassphrase (bc : Bcrypt) (env : Env) (db : DB)
    (passphrase : Bytes) (passphraseType : Int) : Option Error × DB :=
  ChangeStartupPassphrase bc env db [] passphrase passphraseType

/-- `MultiWallet.IsStartupSecuritySet`. -/
def IsStartupSecuritySet (db : DB) : Bool :=
  ReadBoolConfigValueForKey db false

/-- `MultiWallet.StartupSecurityType`; `PassphraseTypePass`, the default, is
declared outside the sources and is a parameter. -/
def StartupSecurityType (PassphraseTypePass : Int) (db : DB) : Int :=
  ReadInt32ConfigValueForKey db PassphraseTypePass

/-- A password hash for examples, `xs` hashed under `salt` is `salt :: xs`.
Like `bcrypt` since `golang.org/x/crypto` v0.5.0 it refuses passwords of
more than 72 bytes. -/
def toyBcrypt : Bcrypt where
  GenerateFromPassword salt password _ :=
    if password.length > 72 then Except.error (Error.bcrypt 1)
    else Except.ok (UInt8.ofNat salt :: password)
  CompareHashAndPassword hash password :=
    if hash.tail = password then none else some (Error.bcrypt 2)

/-- The key that `bcrypt` hands to the Blowfish key schedule for a password:
`expensiveBlowfishSetup` appends a zero byte (`ckey := append(key, 0)`) and
`ExpandKey` reads the four bytes of each of its eighteen subkeys from `ckey`
cyclically (`j++; if j >= len(key) { j = 0 }`), 72 bytes in all.  The hash
depends on the password through these bytes only. -/
def keyMaterial (password : Bytes) : Bytes :=
  (List.range 72).map (fun j => (password ++ [0]).getD (j % (password.length + 1)) 0)

/-- A password hash that consumes the password the way `bcrypt` does, through
`keyMaterial`: the hash is the salt followed by the key material, and a
password is accepted for a hash when its key material is the one in the
hash.  Passwords of more than 72 bytes are refused. -/
def keyBcrypt : Bcrypt where
  GenerateFromPassword salt password _ :=
    if password.length > 72 then Except.error (Error.bcrypt 1)
    else Except.ok (UInt8.ofNat salt :: keyMaterial password)
  CompareHashAndPassword hash password :=
    if hash.tail = keyMaterial password then none else some (Error.bcrypt 2)

/-- The part of a loaded wallet (`dcr.DCRAsset`, `btc.BTCAsset`) that the
multiwallet consults, with the answer its backend will give to `OpenWallet`
and the number of `OpenWallet` calls it has received. -/
structure Asset where
  ID : Int
  /-- What `IsSyncing()` reports. -/
  syncing : Bool := false
  /-- What `WalletOpened()` reports. -/
  opened : Bool := false
  /-- The answer of the backend to `OpenWallet()`: `none` is success. -/
  openFault : Option Nat := none
  /-- How many times `OpenWallet()` has been called on this wallet. -/
  openCalls : Nat := 0
  /-- What `IsWatchingOnlyWallet()` reports. -/
  watchOnly : Bool := false
  /-- The field `EncryptedSeed` of the wallet's record; `none` is a nil
  slice. -/
  EncryptedSeed : Option Bytes := none
deriving DecidableEq, Repr

/-- Modelled from the spec: the wallet's `IsSyncing` is not among the sources;
it reports the wallet's syncing flag. -/
def Asset.IsSyncing (wallet : Asset) : Bool := wallet.syncing

/-- Modelled from the spec: the wallet's `OpenWallet` is not among the sources;
on success the wallet goes from closed to open, on failure it answers the
backend's error. -/
def Asset.OpenWallet (wallet : Asset) : Option Error × Asset :=
  match wallet.openFault with
  | some code => (some (Error.wallet code), { wallet with openCalls := wallet.openCalls + 1 })
  | none => (none, { wallet with opened := true, openCalls := wallet.openCalls + 1 })

/-- A Go `map[int]*Asset`, as the list of its entries in the order in which
a `range` statement visits them. -/
abbrev WalletMap := List (Int × Asset)

/-- A Go `map[int]*Asset` of the bad registry: it holds the pointer that
`LoadExisting` returned next to its error, which may be nil (`none`). -/
abbrev BadWalletMap := List (Int × Option Asset)

/-- The registries of one chain. -/
structure ChainAssets where
  Wallets : WalletMap
  BadWallets : BadWalletMap
deriving DecidableEq, Repr

/-- `Assets`. -/
structure Assets where
  DCR : ChainAssets
  BTC : ChainAssets
deriving DecidableEq, Repr

/-- `MultiWallet`: the store `params.DB` and the registries. -/
structure MultiWallet where
  db : DB
  Assets : Assets
deriving DecidableEq, Repr

/-- The first loop of `OpenWallets`: whether some wallet of the map reports
a sync in progress. -/
def anyIsSyncing : WalletMap → Bool
  | [] => false
  | (_, wallet) :: rest => if wallet.IsSyncing then true else anyIsSyncing rest

/-- An opening loop of `OpenWallets`: `OpenWallet` on each wallet of the map
in turn, returning at the first error. -/
def openEach : WalletMap → Option Error × WalletMap
  | [] => (none, [])
  | (id, wallet) :: rest =>
    match wallet.OpenWallet with
    | (some err, wallet) => (some err, (id, wallet) :: rest)
    | (none, wallet) =>
      match openEach rest with
      | (err, rest) => (err, (id, wallet) :: rest)

/-- `MultiWallet.OpenWallets`. -/
def OpenWallets (bc : Bcrypt) (env : Env) (mw : MultiWallet)
    (startupPassphrase : Bytes) : Option Error × MultiWallet :=
  if anyIsSyncing mw.Assets.DCR.Wallets then (some Error.ErrSyncAlreadyInProgress, mw)
  else
    match VerifyStartupPassphrase bc env mw.db startupPassphrase with
    | (some err, db) => (some err, { mw with db := db })
    | (none, db) =>
      match openEach mw.Assets.DCR.Wallets with
      | (some err, dcrWallets) =>
        (some err, ⟨db, ⟨⟨dcrWallets, mw.Assets.DCR.BadWallets⟩, mw.Assets.BTC⟩⟩)
      | (none, dcrWallets) =>
        match openEach mw.Assets.BTC.Wallets with
        | (err, btcWallets) =>
          (err, ⟨db, ⟨⟨dcrWallets, mw.Assets.DCR.BadWallets⟩,
            ⟨btcWallets, mw.Assets.BTC.BadWallets⟩⟩⟩)

/-- The Go conversion `int32(n)`: the value of `n` modulo `2^32` in the range
from `-2^31` to `2^31 - 1`. -/
def toInt32 (n : Int) : Int :=
  (n + 2147483648) % 4294967296 - 2147483648

/-- Modelled from the spec: the wallet's `WalletOpened` is not among the
sources; it reports the wallet's open/closed flag. -/
def Asset.WalletOpened (wallet : Asset) : Bool := wallet.opened

/-- Modelled from the spec: the wallet's `IsWatchingOnlyWallet` is not among
the sources; it reports whether the wallet holds public keys only. -/
def Asset.IsWatchingOnlyWallet (wallet : Asset) : Bool := wallet.watchOnly

/-- `MultiWallet.LoadedWalletsCount`. -/
def LoadedWalletsCount (mw : MultiWallet) : Int :=
  toInt32 ((mw.Assets.DCR.Wallets.length : Int) + (mw.Assets.BTC.Wallets.length : Int))

/-- `MultiWallet.OpenedWalletIDsRaw`. -/
def OpenedWalletIDsRaw (mw : MultiWallet) : List Int :=
  mw.Assets.DCR.Wallets.foldl
    (fun walletIDs entry =>
      if entry.2.WalletOpened then walletIDs ++ [entry.2.ID] else walletIDs)
    []

/-- `MultiWallet.OpenedWalletsCount`. -/
def OpenedWalletsCount (mw : MultiWallet) : Int :=
  toInt32 ((OpenedWalletIDsRaw mw).length : Int)

/-- `MultiWallet.NumWalletsNeedingSeedBackup`; `backupsNeeded++` is an
`int32` increment. -/
def NumWalletsNeedingSeedBackup (mw : MultiWallet) : Int :=
  mw.Assets.DCR.Wallets.foldl
    (fun backupsNeeded entry =>
      if entry.2.WalletOpened && entry.2.EncryptedSeed ≠ none then toInt32 (backupsNeeded + 1)
      else backupsNeeded)
    0

/-- The loop of `AllWalletsAreWatchOnly`: false at the first wallet that is
not watch-only. -/
def allWatchOnly : WalletMap → Bool
  | [] => true
  | (_, w) :: rest => if !w.IsWatchingOnlyWallet then false else allWatchOnly rest

/-- `MultiWallet.AllWalletsAreWatchOnly`. -/
def AllWalletsAreWatchOnly (mw : MultiWallet) : Bool × Option Error :=
  if mw.Assets.DCR.Wallets.length = 0 then (false, some Error.ErrInvalid)
  else if allWatchOnly mw.Assets.DCR.Wallets then (true, none)
  else (false, none)

/-- `utils.AssetType`, the chain-type tag of a wallet record. -/
inductive AssetType where
  | BTCWalletAsset
  | DCRWalletAsset
  /-- Any other tag. -/
  | other (tag : String)
deriving DecidableEq, Repr

/-- The part of a persisted wallet record (`wallet.Wallet`) that the
multiwallet consults. -/
structure Wallet where
  ID : Int
  Name : String
  /-- The field `Type`. -/
  assetType : AssetType
deriving DecidableEq, Repr

/-- `strings.HasPrefix`. -/
def HasPrefix (s start : String) : Bool :=
  start.data.isPrefixOf s.data

/-- The Go types after which the buckets of the wallets database are named:
storm files a record in the bucket named after its type, and a query
searches the bucket named after the type of the value it is handed. -/
inductive Bucket where
  /-- `wallet.Wallet`. -/
  | Wallet
  /-- `dcr.DCRAsset`. -/
  | DCRAsset
deriving DecidableEq, Repr

/-- The records of the wallets database, bucket by bucket.  `NewMultiWallet`
initialises and reads the bucket of `wallet.Wallet`
(`mwDB.Init(&wallet.Wallet{})`, `query.Find(&wallets)` with
`wallets []*wallet.Wallet`): that is where the saved wallets are.  Nothing
in the sources files a record under `dcr.DCRAsset`. -/
structure Store where
  /-- The saved wallet records, of every chain. -/
  wallets : List Wallet
  /-- The records filed under `dcr.DCRAsset`. -/
  dcrAssets : List Wallet
deriving DecidableEq, Repr

/-- The records of one bucket. -/
def Store.bucket (store : Store) : Bucket → List Wallet
  | Bucket.Wallet => store.wallets
  | Bucket.DCRAsset => store.dcrAssets

/-- The value handed to a storm query, as far as storm looks at it: its type,
which names the bucket searched, and whether the queried field can be read
off the value.  storm reads the field by reflection before it opens the
bucket, and Go panics on a field promoted from an embedded pointer that is
nil. -/
structure Sink where
  bucket : Bucket
  fieldReadable : Bool
deriving DecidableEq, Repr

/-- `mw.params.DB.One("Name", walletName, sink)`, storm's "find one by field"
in the bucket named after the type of `sink`: nil when a record of that
bucket has the name, `storm.ErrNotFound` when none has it.  The result is
`none` when the call panics. -/
def DB.One (fault : Option Nat) (store : Store) (walletName : String) (sink : Sink) :
    Option (Option Error) :=
  if !sink.fieldReadable then none
  else
    match fault with
    | some code => some (some (Error.storm code))
    | none =>
      match (store.bucket sink.bucket).find? (fun record => record.Name = walletName) with
      | some _ => some none
      | none => some (some Error.ErrNotFound)

/-- `MultiWallet.WalletNameExists`, on the receiver's store; the result is
`none` when the call panics.  The value handed to `One` is `&dcr.DCRAsset{}`;
the declaration of `dcr.DCRAsset` is not among the sources, and whether the
field `Name` can be read off its zero value is a parameter. -/
def WalletNameExists (nameReadable : Bool) (fault : Option Nat) (store : Store)
    (walletName : String) : Option (Bool × Option Error) :=
  if HasPrefix walletName "wallet-" then some (false, some Error.ErrReservedWalletName)
  else
    match DB.One fault store walletName ⟨Bucket.DCRAsset, nameReadable⟩ with
    | none => none
    | some none => some (true, none)
    | some (some err) =>
      if err ≠ Error.ErrNotFound then some (false, some err)
      else some (false, none)

/-- The keys of a Go map. -/
def mapKeys {α : Type} (m : List (Int × α)) : List Int :=
  m.map Prod.fst

/-- The Go assignment `m[k] = v`: the value of an existing key is replaced, a
new key gets an entry. -/
def mapSet {α : Type} : List (Int × α) → Int → α → List (Int × α)
  | [], k, v => [(k, v)]
  | (k2, v2) :: rest, k, v =>
    if k2 = k then (k, v) :: rest else (k2, v2) :: mapSet rest k v

/-- The Go statement `delete(m, k)`. -/
def mapDelete {α : Type} (m : List (Int × α)) (k : Int) : List (Int × α) :=
  m.filter (fun entry => !decide (entry.1 = k))

/-- What `btc.LoadExisting` or `dcr.LoadExisting` answers for a record: a
wallet and a nil error, or an error next to a pointer that may be nil. -/
inductive LoadResult where
  | loaded (w : Asset)
  | failed (w : Option Asset) (err : Error)
deriving DecidableEq, Repr

/-- What the environment answers while the saved wallets are loaded: the
backend constructors of the two chains and `WalletExistsAt(wallet.DataDir())`,
none of which is among the sources. -/
structure LoadEnv where
  btcLoadExisting : Wallet → LoadResult
  dcrLoadExisting : Wallet → LoadResult
  WalletExistsAt : Wallet → Bool

/-- One branch of the `switch` in the load loop of `NewMultiWallet`, the same
for both chains: the wallet goes to the bad registry when its constructor
failed or its data directory is missing, to the live registry otherwise. -/
def fileWallet (dataDirExists : Bool) (result : LoadResult) (chain : ChainAssets)
    (wallet : Wallet) : ChainAssets :=
  match result with
  | LoadResult.failed w _ =>
    { chain with BadWallets := mapSet chain.BadWallets wallet.ID w }
  | LoadResult.loaded w =>
    if !dataDirExists then
      -- err = fmt.Errorf("missing wallet database file: %v", wallet.DataDir())
      { chain with BadWallets := mapSet chain.BadWallets wallet.ID (some w) }
    else
      { chain with Wallets := mapSet chain.Wallets wallet.ID w }

/-- The body of the load loop of `NewMultiWallet` for one record; the log
lines and the log level read in the DCR branch are left out. -/
def loadWallet (env : LoadEnv) (assets : Assets) (wallet : Wallet) : Assets :=
  match wallet.assetType with
  | AssetType.BTCWalletAsset =>
    { assets with
      BTC := fileWallet (env.WalletExistsAt wallet) (env.btcLoadExisting wallet)
        assets.BTC wallet }
  | AssetType.DCRWalletAsset =>
    { assets with
      DCR := fileWallet (env.WalletExistsAt wallet) (env.dcrLoadExisting wallet)
        assets.DCR wallet }
  | AssetType.other _ => assets

/-- The registries as `NewMultiWallet` makes them: four empty maps. -/
def Assets.empty : Assets := ⟨⟨[], []⟩, ⟨[], []⟩⟩

/-- The load loop of `NewMultiWallet` over the records read from the store. -/
def loadWallets (env : LoadEnv) (wallets : List Wallet) : Assets :=
  wallets.foldl (loadWallet env) Assets.empty

/-- The number of wallets in the live registries. -/
def Assets.liveCount (assets : Assets) : Nat :=
  assets.DCR.Wallets.length + assets.BTC.Wallets.length

/-- The number of wallets in the bad registries. -/
def Assets.badCount (assets : Assets) : Nat :=
  assets.DCR.BadWallets.length + assets.BTC.BadWallets.length

/-- The number of entries in the four registries. -/
def Assets.count (assets : Assets) : Nat :=
  assets.liveCount + assets.badCount

/-- The keys of the four registries. -/
def Assets.keys (assets : Assets) : List Int :=
  mapKeys assets.DCR.Wallets ++ mapKeys assets.DCR.BadWallets ++
    (mapKeys assets.BTC.Wallets ++ mapKeys assets.BTC.BadWallets)

/-- Where a record with the given constructor result and data directory
belongs in the registries of its chain: in the live registry when the
constructor succeeded and the data directory exists, in the bad registry
otherwise. -/
def FiledIn (dataDirExists : Bool) (result : LoadResult) (chain : ChainAssets)
    (id : Int) : Prop :=
  match result with
  | LoadResult.loaded w =>
    if dataDirExists then (id, w) ∈ chain.Wallets else (id, some w) ∈ chain.BadWallets
  | LoadResult.failed w _ => (id, w) ∈ chain.BadWallets

/-- A record of type DCR or BTC is filed where it belongs in the registries
of its chain. -/
def IsFiled (env : LoadEnv) (assets : Assets) (wallet : Wallet) : Prop :=
  match wallet.assetType with
  | AssetType.BTCWalletAsset =>
    FiledIn (env.WalletExistsAt wallet) (env.btcLoadExisting wallet) assets.BTC wallet.ID
  | AssetType.DCRWalletAsset =>
    FiledIn (env.WalletExistsAt wallet) (env.dcrLoadExisting wallet) assets.DCR wallet.ID
  | AssetType.other _ => True

/-- The value of `err` in a turn of the load loop after the check of the data
directory: the error of the constructor, or the "missing wallet database
file" error when the constructor succeeded and the directory is missing.
The turn logs it and files the wallet as bad exactly when it is not nil. -/
def loadErr (dataDirExists : Bool) (result : LoadResult) : Option Error :=
  match result with
  | LoadResult.failed _ err => some err
  | LoadResult.loaded _ =>
    if !dataDirExists then some Error.missingWalletDatabaseFile else none

/-- What the constructor of the record's chain answers for the record; `none`
for a record of a chain the load loop has no case for. -/
def LoadEnv.LoadExisting (env : LoadEnv) (wallet : Wallet) : Option LoadResult :=
  match wallet.assetType with
  | AssetType.BTCWalletAsset => some (env.btcLoadExisting wallet)
  | AssetType.DCRWalletAsset => some (env.dcrLoadExisting wallet)
  | AssetType.other _ => none

/-- `MultiWallet.BadWallets`. -/
def BadWallets (mw : MultiWallet) : BadWalletMap :=
  mw.Assets.DCR.BadWallets

/-- What `Shutdown` does to the world outside the multiwallet, in the order
in which it does it. -/
inductive ShutdownEvent where
  /-- `mw.shuttingDown <- true`. -/
  | shuttingDown
  /-- `wallet.CancelRescan()` on the wallet with this ID. -/
  | CancelRescan (id : Int)
  /-- `wallet.CancelSync()`. -/
  | CancelSync (id : Int)
  /-- `wallet.Shutdown()`. -/
  | walletShutdown (id : Int)
  /-- `mw.params.DB.Close()`. -/
  | dbClose
  /-- `log.Errorf("db closed with error: %v", err)`. -/
  | logDbCloseError (code : Nat)
  /-- `logRotator.Close()`. -/
  | logRotatorClose
deriving DecidableEq, Repr

/-- What `Shutdown` finds: whether `mw.params.DB` and `logRotator` are not nil
and what `DB.Close()` answers. -/
structure ShutdownEnv where
  dbPresent : Bool
  closeFault : Option Nat
  logRotatorPresent : Bool
deriving DecidableEq, Repr

/-- The loop of `Shutdown` over a map of wallets. -/
def shutdownEach : WalletMap → List ShutdownEvent
  | [] => []
  | (_, wallet) :: rest =>
    ShutdownEvent.CancelRescan wallet.ID :: ShutdownEvent.CancelSync wallet.ID ::
      ShutdownEvent.walletShutdown wallet.ID :: shutdownEach rest

/-- `MultiWallet.Shutdown`, as the sequence of its effects; the informational
log lines are left out. -/
def Shutdown (env : ShutdownEnv) (mw : MultiWallet) : List ShutdownEvent :=
  [ShutdownEvent.shuttingDown] ++
  shutdownEach mw.Assets.DCR.Wallets ++
  (if env.dbPresent then
    match env.closeFault with
    | some code => [ShutdownEvent.dbClose, ShutdownEvent.logDbCloseError code]
    | none => [ShutdownEvent.dbClose]
  else []) ++
  (if env.logRotatorPresent then [ShutdownEvent.logRotatorClose] else [])

/-- The password hash accepts a password for a hash that it generated from
that password. -/
def Bcrypt.Sound (bc : Bcrypt) : Prop :=
  ∀ salt password cost hash,
    bc.GenerateFromPassword salt password cost = Except.ok hash →
      bc.CompareHashAndPassword hash password = none

/-- The password hash accepts, for a hash that it generated from a password,
that password and no other. -/
def Bcrypt.Exact (bc : Bcrypt) : Prop :=
  ∀ salt password cost hash candidate,
    bc.GenerateFromPassword salt password cost = Except.ok hash →
      (bc.CompareHashAndPassword hash candidate = none ↔ candidate = password)

/-- The invariant of the security state: a hash is stored exactly when
`IsStartupSecuritySet` answers true. -/
def SecurityInvariant (db : DB) : Prop :=
  db.startupPassphraseHash.isSome = IsStartupSecuritySet db

instance (db : DB) : Decidable (SecurityInvariant db) :=
  inferInstanceAs (Decidable (_ = _))

/-- A wallet after one `OpenWallet` call that succeeded. -/
def Asset.afterOpen (wallet : Asset) : Asset :=
  { wallet with opened := true, openCalls := wallet.openCalls + 1 }

/-- A wallet after one `OpenWallet` call that failed. -/
def Asset.afterFailedOpen (wallet : Asset) : Asset :=
  { wallet with openCalls := wallet.openCalls + 1 }

/-- A map in which every wallet has received one successful `OpenWallet`
call. -/
def allOpened (wallets : WalletMap) : WalletMap :=
  wallets.map (fun entry => (entry.1, entry.2.afterOpen))

/-- The wallets of the live registry in the order in which `OpenWallets`
visits them: the DCR wallets, then the BTC wallets. -/
def MultiWallet.liveWallets (mw : MultiWallet) : WalletMap :=
  mw.Assets.DCR.Wallets ++ mw.Assets.BTC.Wallets

end Libwallet

/-! Package `version`.  A Go string is taken as the list of its characters;
the alphabets are ASCII, so a byte that is not valid UTF-8 would be dropped
like any other character outside them. -/

namespace AppVersion

/-- The allowed characters of the pre-release portion. -/
def semanticAlphabet : String :=
  "0123456789ABCDEFGHIJKLMNOPQRSTUVWXYZabcdefghijklmnopqrstuvwxyz-"

/-- The allowed characters of the build portion. -/
def semanticBuildAlphabet : String :=
  "0123456789ABCDEFGHIJKLMNOPQRSTUVWXYZabcdefghijklmnopqrstuvwxyz-."

def AppMajor : Nat := 2

def AppMinor : Nat := 1

def AppPatch : Nat := 0

/-- `strings.ContainsRune`. -/
def ContainsRune (s : String) (r : Char) : Bool :=
  decide (r ∈ s.data)

/-- `normalizeSemString`: the loop appends to the buffer every character of
`str` that the alphabet contains. -/
def normalizeSemString (str alphabet : String) : String :=
  String.mk
    (str.data.foldl (fun result r => if ContainsRune alphabet r then result ++ [r] else result)
      [])

/-- `normalizePreRelString`. -/
def normalizePreRelString (str : String) : String :=
  normalizeSemString str semanticAlphabet

/-- `normalizeBuildString`. -/
def normalizeBuildString (str : String) : String :=
  normalizeSemString str semanticBuildAlphabet

/-- `Version`; the package variables `appPreRelease` and `appBuild`, which
the build may override, are its arguments. -/
def Version (appPreRelease appBuild : String) : String :=
  let version := toString AppMajor ++ "." ++ toString AppMinor ++ "." ++ toString AppPatch
  let preRelease := normalizePreRelString appPreRelease
  let version := if preRelease ≠ "" then version ++ "-" ++ preRelease else version
  let build := normalizeBuildString appBuild
  let version := if build ≠ "" then version ++ "+" ++ build else version
  version

/-- The characters before the first `sep` and, when there is one, the
characters after it. -/
def cutAt (sep : Char) : List Char → List Char × Option (List Char)
  | [] => ([], none)
  | c :: rest =>
    if c = sep then ([], some rest)
    else
      match cutAt sep rest with
      | (before, after) => (c :: before, after)

/-- The fields of a list of characters separated by `sep`. -/
def fields (sep : Char) : List Char → List (List Char)
  | [] => [[]]
  | c :: rest =>
    if c = sep then [] :: fields sep rest
    else
      match fields sep rest with
      | [] => [[c]]
      | field :: others => (c :: field) :: others

/-- Semantic versioning 2.0.0, item 2: a numeric identifier, digits without
a leading zero. -/
def isNumericIdentifier (id : List Char) : Bool :=
  !id.isEmpty && id.all Char.isDigit && (decide (id.length = 1) || id.head? != some '0')

/-- Semantic versioning 2.0.0, item 9: a pre-release identifier is not
empty, has only ASCII alphanumerics and hyphens, and has no leading zero
when it is numeric. -/
def isPreReleaseIdentifier (id : List Char) : Bool :=
  !id.isEmpty && id.all (fun c => c.isAlphanum || c == '-') &&
    (!id.all Char.isDigit || decide (id.length = 1) || id.head? != some '0')

/-- Semantic versioning 2.0.0, item 10: a build identifier is not empty and
has only ASCII alphanumerics and hyphens. -/
def isBuildIdentifier (id : List Char) : Bool :=
  !id.isEmpty && id.all (fun c => c.isAlphanum || c == '-')

/-- Whether a string is a version of semantic versioning 2.0.0: three numeric
identifiers separated by dots, then optionally a hyphen and dot-separated
pre-release identifiers, then optionally a plus and dot-separated build
identifiers. -/
def isSemVer (s : String) : Bool :=
  match cutAt '+' s.data with
  | (beforeBuild, build) =>
    match cutAt '-' beforeBuild with
    | (core, preRelease) =>
      (match fields '.' core with
        | [major, minor, patch] =>
          isNumericIdentifier major && isNumericIdentifier minor && isNumericIdentifier patch
        | _ => false) &&
      (match preRelease with
        | none => true
        | some part => (fields '.' part).all isPreReleaseIdentifier) &&
      (match build with
        | none => true
        | some part => (fields '.' part).all isBuildIdentifier)

end AppVersion

/-! Package `libwallet/assets/eth`: the operations of the ETH backend that
are not implemented. -/

namespace Eth

/-- Modelled from the spec: `utils.ErrETHMethodNotImplemented` is not among
the sources; it makes the "method not implemented" error that names the
operation. -/
inductive Error where
  | ErrETHMethodNotImplemented (method : String)
deriving DecidableEq, Repr

/-- The receiver `*Asset`; none of the operations below reads it. -/
structure Asset where
  ID : Int
deriving DecidableEq, Repr

/-- What a call hands to its caller and the error it gives to `log.Error`. -/
structure Logged (α : Type) where
  value : α
  logged : Error

/-- `CreateWatchOnlyWallet`: the nil asset and the error. -/
def CreateWatchOnlyWallet {P : Type} (_walletName _extendedPublicKey : String) (_params : P) :
    Option Asset × Option Error :=
  (none, some (Error.ErrETHMethodNotImplemented "CreateWatchOnlyWallet"))

/-- `RestoreWallet`. -/
def RestoreWallet {A P : Type} (_seedMnemonic : String) (_pass : A) (_params : P) :
    Option Asset × Option Error :=
  (none, some (Error.ErrETHMethodNotImplemented "RestoreWallet"))

/-- `LoadExisting`. -/
def LoadExisting {W P : Type} (_w : W) (_params : P) : Option Asset × Option Error :=
  (none, some (Error.ErrETHMethodNotImplemented "LoadExisting"))

/-- `Asset.IsWaiting`. -/
def IsWaiting (_asset : Asset) : Logged Bool :=
  ⟨false, Error.ErrETHMethodNotImplemented "IsWaiting"⟩

/-- `Asset.IsWatchingOnlyWallet`. -/
def IsWatchingOnlyWallet (_asset : Asset) : Logged Bool :=
  ⟨false, Error.ErrETHMethodNotImplemented "IsWatchingOnlyWallet"⟩

/-- `Asset.ChangePrivatePassphraseForWallet`. -/
def ChangePrivatePassphraseForWallet (_asset : Asset)
    (_oldPrivatePassphrase _newPrivatePassphrase : String) (_privatePassphraseType : Int) :
    Option Error :=
  some (Error.ErrETHMethodNotImplemented "ChangePrivatePassphraseForWallet")

/-- `Asset.IsConnectedToNetwork`. -/
def IsConnectedToNetwork (_asset : Asset) : Logged Bool :=
  ⟨false, Error.ErrETHMethodNotImplemented "IsConnectedToNetwork"⟩

/-- `Asset.ToAmount`: the nil `AssetAmount`. -/
def ToAmount (_asset : Asset) (_v : Int) : Logged (Option Int) :=
  ⟨none, Error.ErrETHMethodNotImplemented "ToAmount"⟩

/-- `Asset.GetBestBlock`: the nil `*BlockInfo`. -/
def GetBestBlock (_asset : Asset) : Logged (Option (Int × Int)) :=
  ⟨none, Error.ErrETHMethodNotImplemented "GetBestBlock"⟩

/-- `Asset.GetBestBlockHeight`. -/
def GetBestBlockHeight (_asset : Asset) : Logged Int :=
  ⟨-1, Error.ErrETHMethodNotImplemented "GetBestBlockHeight"⟩

/-- `Asset.GetBestBlockTimeStamp`. -/
def GetBestBlockTimeStamp (_asset : Asset) : Logged Int :=
  ⟨-1, Error.ErrETHMethodNotImplemented "GetBestBlockTimeStamp"⟩

/-- `Asset.SignMessage`: the nil signature and the error. -/
def SignMessage (_asset : Asset) (_passphrase _address _message : String) :
    Option (List UInt8) × Option Error :=
  (none, some (Error.ErrETHMethodNotImplemented "SignMessage"))

/-- `Asset.VerifyMessage`. -/
def VerifyMessage (_asset : Asset) (_address _message _signatureBase64 : String) :
    Bool × Option Error :=
  (false, some (Error.ErrETHMethodNotImplemented "VerifyMessage"))

end Eth

/-! Package `ui/page/send`. -/

namespace Send

/-- The part of `sharedW.Account` that `isAccountValid` reads. -/
structure Account where
  WalletID : Int
  Number : Int
deriving DecidableEq, Repr

/-- `recipient.isAccountValid`.  `load.MaxInt32` and the value of
`load.MixedAccountNumber(destinationWallet)` for the wallet selected in the
destination dropdown are declared outside the sources and are parameters;
a nil pointer is `none`. -/
def isAccountValid (MaxInt32 mixedAccountNumber : Int)
    (sourceAccount account : Option Account) : Bool :=
  match sourceAccount, account with
  | some sourceAccount, some account =>
    let accountIsValid := decide (account.Number ≠ MaxInt32)
    -- Filter mixed wallet
    let isMixedAccount := decide (mixedAccountNumber = account.Number)
    -- Filter the sending account.
    let sourceWalletID := sourceAccount.WalletID
    let isSameAccount :=
      decide (sourceWalletID = account.WalletID) && decide (account.Number = sourceAccount.Number)
    if !accountIsValid || isSameAccount || isMixedAccount then false else true
  | _, _ => false

end Send

/-! Package `ui/cryptomaterial`. -/

namespace Cryptomaterial

/-- The fields of `SegmentedControl` that `handleActionEvent` and
`SelectedSegment` read and write. -/
structure SegmentedControl where
  selectedIndex : Int
  segmentTitlesTranslationKey : List String
  changed : Bool
  allowCycle : Bool
deriving DecidableEq, Repr

/-- `SegmentedControl.handleActionEvent`; the calls that start the slide
animation are left out. -/
def handleActionEvent (sc : SegmentedControl) (isNext : Bool) : SegmentedControl :=
  let l : Int := (sc.segmentTitlesTranslationKey.length : Int) - 1 -- index starts at 0
  if isNext then
    if sc.selectedIndex = l then
      if !sc.allowCycle then sc
      else { sc with selectedIndex := 0, changed := true }
    else { sc with selectedIndex := sc.selectedIndex + 1, changed := true }
  else
    if sc.selectedIndex = 0 then
      if !sc.allowCycle then sc
      else { sc with selectedIndex := l, changed := true }
    else { sc with selectedIndex := sc.selectedIndex - 1, changed := true }

/-- `SegmentedControl.SelectedSegment`; `none` is the panic of an index out
of range. -/
def SelectedSegment (sc : SegmentedControl) : Option String :=
  if sc.selectedIndex < 0 then none
  else sc.segmentTitlesTranslationKey.get? sc.selectedIndex.toNat

end Cryptomaterial

namespace Libwallet

/-! ## Auxiliary facts -/

theorem Bcrypt.Exact.sound {bc : Bcrypt} (h : bc.Exact) : bc.Sound := by
  intro salt password cost hash hgen
  exact (h salt password cost hash password hgen).2 rfl

theorem toyBcrypt_exact : toyBcrypt.Exact := by
  intro salt password cost hash candidate hgen
  simp only [toyBcrypt] at hgen ⊢
  split at hgen
  · cases hgen
  · cases hgen
    by_cases hc : candidate = password
    · simp [hc]
    · have hc2 : ¬ password = candidate := fun h => hc h.symm
      simp [hc, hc2]

theorem toyBcrypt_sound : toyBcrypt.Sound := toyBcrypt_exact.sound

/-- The hash `keyBcrypt` accepts the passwords it hashed. -/
theorem keyBcrypt_sound : keyBcrypt.Sound := by
  intro salt password cost hash hgen
  simp only [keyBcrypt] at hgen ⊢
  split at hgen
  · cases hgen
  · cases hgen
    simp

/-- Two passwords with the same key material: `"a"` followed by the zero byte
and `"a\x00a"` followed by the zero byte repeat to the same 72 bytes. -/
theorem keyMaterial_collision : keyMaterial [97, 0, 97] = keyMaterial [97] := by
  decide

/-- `VerifyStartupPassphrase` hands the store back as it received it. -/
theorem verify_db (bc : Bcrypt) (env : Env) (db : DB) (c : Bytes) :
    (VerifyStartupPassphrase bc env db c).2 = db := by
  unfold VerifyStartupPassphrase DB.Get
  cases env.readHash <;> cases db.startupPassphraseHash <;> simp <;> split <;> simp

/-- `VerifyStartupPassphrase` when the lookup of the hash fails. -/
theorem verify_read_fault (bc : Bcrypt) (env : Env) (db : DB) (c : Bytes) (code : Nat)
    (h : env.readHash = some code) :
    (VerifyStartupPassphrase bc env db c).1 = some (Error.storm code) := by
  unfold VerifyStartupPassphrase DB.Get
  simp [h]

/-- `VerifyStartupPassphrase` when the lookup finds no hash. -/
theorem verify_absent (bc : Bcrypt) (env : Env) (db : DB) (c : Bytes)
    (hr : env.readHash = none) (hs : db.startupPassphraseHash = none) :
    (VerifyStartupPassphrase bc env db c).1 =
      if c = [] then none else some Error.ErrInvalidPassphrase := by
  unfold VerifyStartupPassphrase DB.Get
  cases c <;> simp [hr, hs]

/-- `VerifyStartupPassphrase` when the lookup finds a hash. -/
theorem verify_present (bc : Bcrypt) (env : Env) (db : DB) (c hash : Bytes)
    (hr : env.readHash = none) (hs : db.startupPassphraseHash = some hash) :
    (VerifyStartupPassphrase bc env db c).1 =
      if bc.CompareHashAndPassword hash c = none then none
      else some Error.ErrInvalidPassphrase := by
  unfold VerifyStartupPassphrase DB.Get
  simp only [hr, hs]
  cases hcmp : bc.CompareHashAndPassword hash c <;> simp [hcmp]

/-- What a lookup that answers `storm.ErrNotFound` says about the call. -/
theorem get_notFound (fault : Option Nat) (db : DB)
    (h : (DB.Get fault db).1 = some Error.ErrNotFound) :
    fault = none ∧ db.startupPassphraseHash = none := by
  unfold DB.Get at h
  cases fault <;> cases hs : db.startupPassphraseHash <;> simp_all

/-- What a lookup that finds a hash says about the call. -/
theorem get_found (fault : Option Nat) (db : DB) (hash : Bytes)
    (h : (DB.Get fault db).2.1 = some hash) :
    fault = none ∧ db.startupPassphraseHash = some hash := by
  unfold DB.Get at h
  cases fault <;> cases hs : db.startupPassphraseHash <;> simp_all

theorem verify_eq (bc : Bcrypt) (env : Env) (db : DB) (c : Bytes) (r : Option Error)
    (h : (VerifyStartupPassphrase bc env db c).1 = r) :
    VerifyStartupPassphrase bc env db c = (r, db) :=
  Prod.ext h (verify_db bc env db c)

/-- `RemoveStartupPassphrase` when the verification of the old passphrase
fails. -/
theorem remove_of_verify_error (bc : Bcrypt) (env : Env) (db : DB) (old : Bytes) (e : Error)
    (h : (VerifyStartupPassphrase bc env db old).1 = some e) :
    RemoveStartupPassphrase bc env db old = (some e, db) := by
  unfold RemoveStartupPassphrase
  rw [verify_eq bc env db old _ h]

/-- `RemoveStartupPassphrase` when the verification of the old passphrase
succeeds. -/
theorem remove_of_verify_ok (bc : Bcrypt) (env : Env) (db : DB) (old : Bytes)
    (h : (VerifyStartupPassphrase bc env db old).1 = none) :
    RemoveStartupPassphrase bc env db old =
      match env.writeHash with
      | some code => (some (Error.storm code), db)
      | none =>
        (none, DeleteUserConfigValueForKey env.writeType
          (SaveUserConfigValue env.writeFlag { db with startupPassphraseHash := none }
            (ConfigEntry.IsStartupSecuritySet false))
          ConfigKey.StartupSecurityTypeConfigKey) := by
  unfold RemoveStartupPassphrase
  rw [verify_eq bc env db old _ h]
  unfold DB.Delete
  cases env.writeHash <;> rfl

/-- `ChangeStartupPassphrase` with an empty new passphrase. -/
theorem change_nil (bc : Bcrypt) (env : Env) (db : DB) (old : Bytes) (kind : Int) :
    ChangeStartupPassphrase bc env db old [] kind = RemoveStartupPassphrase bc env db old := by
  simp [ChangeStartupPassphrase]

/-- `ChangeStartupPassphrase` when the verification of the old passphrase
fails. -/
theorem change_of_verify_error (bc : Bcrypt) (env : Env) (db : DB) (old new : Bytes)
    (kind : Int) (e : Error) (h : (VerifyStartupPassphrase bc env db old).1 = some e) :
    ChangeStartupPassphrase bc env db old new kind = (some e, db) := by
  unfold ChangeStartupPassphrase
  split
  · exact remove_of_verify_error bc env db old e h
  · rw [verify_eq bc env db old _ h]

/-- `ChangeStartupPassphrase` with a non-empty new passphrase when the
verification of the old passphrase succeeds. -/
theorem change_of_verify_ok (bc : Bcrypt) (env : Env) (db : DB) (old new : Bytes)
    (kind : Int) (hnew : new ≠ []) (h : (VerifyStartupPassphrase bc env db old).1 = none) :
    ChangeStartupPassphrase bc env db old new kind =
      match bc.GenerateFromPassword env.salt new DefaultCost with
      | Except.error err => (some err, db)
      | Except.ok hash =>
        match env.writeHash with
        | some code => (some (Error.storm code), db)
        | none =>
          (none, SaveUserConfigValue env.writeType
            (SaveUserConfigValue env.writeFlag { db with startupPassphraseHash := some hash }
              (ConfigEntry.IsStartupSecuritySet true))
            (ConfigEntry.StartupSecurityType kind)) := by
  unfold ChangeStartupPassphrase
  have hlen : ¬ new.length = 0 := by
    cases new
    · exact absurd rfl hnew
    · simp
  rw [if_neg hlen, verify_eq bc env db old _ h]
  unfold DB.Set
  cases bc.GenerateFromPassword env.salt new DefaultCost <;> cases env.writeHash <;> rfl

theorem save_hash (fault : Option Nat) (db : DB) (entry : ConfigEntry) :
    (SaveUserConfigValue fault db entry).startupPassphraseHash = db.startupPassphraseHash := by
  unfold SaveUserConfigValue
  cases fault <;> cases entry <;> rfl

theorem delete_hash (fault : Option Nat) (db : DB) (key : ConfigKey) :
    (DeleteUserConfigValueForKey fault db key).startupPassphraseHash =
      db.startupPassphraseHash := by
  unfold DeleteUserConfigValueForKey
  cases fault <;> cases key <;> rfl

/-- A `RemoveStartupPassphrase` that returns nil verified the old passphrase
and deleted the hash. -/
theorem remove_ok (bc : Bcrypt) (env : Env) (db : DB) (old : Bytes)
    (h : (RemoveStartupPassphrase bc env db old).1 = none) :
    (VerifyStartupPassphrase bc env db old).1 = none ∧ env.writeHash = none ∧
    (RemoveStartupPassphrase bc env db old).2.startupPassphraseHash = none := by
  cases hver : (VerifyStartupPassphrase bc env db old).1 with
  | some e =>
    rw [remove_of_verify_error bc env db old e hver] at h
    cases h
  | none =>
    rw [remove_of_verify_ok bc env db old hver] at h ⊢
    cases hw : env.writeHash with
    | some code => rw [hw] at h; cases h
    | none => exact ⟨rfl, rfl, by simp [delete_hash, save_hash]⟩

/-- A `ChangeStartupPassphrase` to a non-empty passphrase that returns nil
verified the old passphrase and wrote a hash generated from the new one. -/
theorem change_ok (bc : Bcrypt) (env : Env) (db : DB) (old new : Bytes) (kind : Int)
    (hnew : new ≠ []) (h : (ChangeStartupPassphrase bc env db old new kind).1 = none) :
    (VerifyStartupPassphrase bc env db old).1 = none ∧ env.writeHash = none ∧
    ∃ hash, bc.GenerateFromPassword env.salt new DefaultCost = Except.ok hash ∧
      (ChangeStartupPassphrase bc env db old new kind).2.startupPassphraseHash =
        some hash := by
  cases hver : (VerifyStartupPassphrase bc env db old).1 with
  | some e =>
    rw [change_of_verify_error bc env db old new kind e hver] at h
    cases h
  | none =>
    rw [change_of_verify_ok bc env db old new kind hnew hver] at h ⊢
    cases hgen : bc.GenerateFromPassword env.salt new DefaultCost with
    | error err => rw [hgen] at h; cases h
    | ok hash =>
      cases hw : env.writeHash with
      | some code => rw [hgen, hw] at h; cases h
      | none => exact ⟨rfl, rfl, hash, rfl, by simp [save_hash]⟩

/-- `RemoveStartupPassphrase` when the deletion of the hash fails. -/
theorem remove_write_fault (bc : Bcrypt) (env : Env) (db : DB) (old : Bytes) (code : Nat)
    (hw : env.writeHash = some code) :
    (RemoveStartupPassphrase bc env db old).1 ≠ none ∧
    (RemoveStartupPassphrase bc env db old).2 = db := by
  cases hver : (VerifyStartupPassphrase bc env db old).1 with
  | some e => rw [remove_of_verify_error bc env db old e hver]; simp
  | none => rw [remove_of_verify_ok bc env db old hver, hw]; simp

/-- The state after a `RemoveStartupPassphrase` that returns nil. -/
theorem remove_ok_state (bc : Bcrypt) (env : Env) (db : DB) (old : Bytes)
    (h : (RemoveStartupPassphrase bc env db old).1 = none) :
    (RemoveStartupPassphrase bc env db old).2 =
      DeleteUserConfigValueForKey env.writeType
        (SaveUserConfigValue env.writeFlag { db with startupPassphraseHash := none }
          (ConfigEntry.IsStartupSecuritySet false))
        ConfigKey.StartupSecurityTypeConfigKey := by
  obtain ⟨hver, hw, _⟩ := remove_ok bc env db old h
  rw [remove_of_verify_ok bc env db old hver, hw]

/-- `RemoveStartupPassphrase` and `ChangeStartupPassphrase` hand the store
back as they received it when they return an error. -/
theorem remove_error_state (bc : Bcrypt) (env : Env) (db : DB) (old : Bytes)
    (h : (RemoveStartupPassphrase bc env db old).1 ≠ none) :
    (RemoveStartupPassphrase bc env db old).2 = db := by
  cases hver : (VerifyStartupPassphrase bc env db old).1 with
  | some e => rw [remove_of_verify_error bc env db old e hver]
  | none =>
    rw [remove_of_verify_ok bc env db old hver] at h ⊢
    cases hw : env.writeHash with
    | some code => rfl
    | none => rw [hw] at h; exact absurd rfl h

theorem change_error_state (bc : Bcrypt) (env : Env) (db : DB) (old new : Bytes) (kind : Int)
    (h : (ChangeStartupPassphrase bc env db old new kind).1 ≠ none) :
    (ChangeStartupPassphrase bc env db old new kind).2 = db := by
  by_cases hnew : new = []
  · subst hnew
    rw [change_nil] at h ⊢
    exact remove_error_state bc env db old h
  · cases hver : (VerifyStartupPassphrase bc env db old).1 with
    | some e => rw [change_of_verify_error bc env db old new kind e hver]
    | none =>
      rw [change_of_verify_ok bc env db old new kind hnew hver] at h ⊢
      cases hgen : bc.GenerateFromPassword env.salt new DefaultCost with
      | error err => rfl
      | ok hash =>
        cases hw : env.writeHash with
        | some code => rfl
        | none => rw [hgen, hw] at h; exact absurd rfl h

/-- The invariant after a `RemoveStartupPassphrase` whose write of the flag
works. -/
theorem remove_invariant (bc : Bcrypt) (env : Env) (db : DB) (old : Bytes)
    (hinv : SecurityInvariant db) (hflag : env.writeFlag = none) :
    SecurityInvariant (RemoveStartupPassphrase bc env db old).2 := by
  by_cases h : (RemoveStartupPassphrase bc env db old).1 = none
  · rw [remove_ok_state bc env db old h, hflag]
    unfold SecurityInvariant IsStartupSecuritySet ReadBoolConfigValueForKey
    rw [delete_hash]
    unfold DeleteUserConfigValueForKey SaveUserConfigValue
    cases env.writeType <;> rfl
  · rw [remove_error_state bc env db old h]
    exact hinv

/-- The invariant after a `ChangeStartupPassphrase` whose write of the flag
works. -/
theorem change_invariant (bc : Bcrypt) (env : Env) (db : DB) (old new : Bytes) (kind : Int)
    (hinv : SecurityInvariant db) (hflag : env.writeFlag = none) :
    SecurityInvariant (ChangeStartupPassphrase bc env db old new kind).2 := by
  by_cases hnew : new = []
  · subst hnew
    rw [change_nil]
    exact remove_invariant bc env db old hinv hflag
  · by_cases h : (ChangeStartupPassphrase bc env db old new kind).1 = none
    · obtain ⟨hver, hw, hash, hgen, _⟩ := change_ok bc env db old new kind hnew h
      rw [change_of_verify_ok bc env db old new kind hnew hver, hgen, hw, hflag]
      unfold SecurityInvariant IsStartupSecuritySet ReadBoolConfigValueForKey
      rw [save_hash]
      unfold SaveUserConfigValue
      cases env.writeType <;> rfl
    · rw [change_error_state bc env db old new kind h]
      exact hinv

/-! ## The startup security gate -/

/-- C1: when no startup-passphrase hash is stored, that is when the lookup of
the hash answers `storm.ErrNotFound`, `VerifyStartupPassphrase` returns nil
if and only if the candidate is empty, and every non-empty candidate fails
with `ErrInvalidPassphrase`. -/
theorem verifyStartupPassphrase_no_hash (bc : Bcrypt) (env : Env) (db : DB)
    (candidate : Bytes)
    (hnone : (DB.Get env.readHash db).1 = some Error.ErrNotFound) :
    ((VerifyStartupPassphrase bc env db candidate).1 = none ↔ candidate = []) ∧
    (candidate ≠ [] →
      (VerifyStartupPassphrase bc env db candidate).1 = some Error.ErrInvalidPassphrase) := by
  obtain ⟨hr, hs⟩ := get_notFound _ _ hnone
  rw [verify_absent bc env db candidate hr hs]
  by_cases hc : candidate = [] <;> simp [hc]

theorem verifyStartupPassphrase_no_hash_witness :
    ((VerifyStartupPassphrase toyBcrypt (Env.ok 0) DB.empty [97, 98]).1 = none ↔
        ([97, 98] : Bytes) = []) ∧
    (([97, 98] : Bytes) ≠ [] →
      (VerifyStartupPassphrase toyBcrypt (Env.ok 0) DB.empty [97, 98]).1 =
        some Error.ErrInvalidPassphrase) :=
  verifyStartupPassphrase_no_hash toyBcrypt (Env.ok 0) DB.empty [97, 98] (by decide)

/-- C2, as stated, fails at a candidate that `bcrypt` does not tell from the
passphrase.  `SetStartupPassphrase` stores the hash of `"a"`; the candidate
`"a\x00a"` differs from `"a"` and has the same key material, and
`VerifyStartupPassphrase` returns nil for it. -/
theorem verifyStartupPassphrase_key_collision :
    SetStartupPassphrase keyBcrypt (Env.ok 7) DB.empty [97] 0 =
      (none, ⟨some (7 :: keyMaterial [97]), some true, some 0⟩) ∧
    keyBcrypt.GenerateFromPassword 7 [97] DefaultCost = Except.ok (7 :: keyMaterial [97]) ∧
    ([97, 0, 97] : Bytes) ≠ [97] ∧
    (VerifyStartupPassphrase keyBcrypt (Env.ok 0)
      ⟨some (7 :: keyMaterial [97]), some true, some 0⟩ [97, 0, 97]).1 = none ∧
    ¬ ((VerifyStartupPassphrase keyBcrypt (Env.ok 0)
      ⟨some (7 :: keyMaterial [97]), some true, some 0⟩ [97, 0, 97]).1 = none ↔
        ([97, 0, 97] : Bytes) = [97]) := by
  refine ⟨by decide, rfl, by decide, by decide, ?_⟩
  intro h
  exact absurd (h.1 (by decide)) (by decide)

/-- C2, amended: when the hash of a passphrase `p` is stored, that is when the
lookup finds a hash that `bcrypt` generated from `p`,
`VerifyStartupPassphrase c` returns nil for `c = p`, returns nil exactly when
`bcrypt.CompareHashAndPassword` accepts `c` for the stored hash, fails with
`ErrInvalidPassphrase` otherwise, hands the store back unchanged, and gives
the same result on every store in which the lookup finds the same hash. -/
theorem verifyStartupPassphrase_hash_stored (bc : Bcrypt) (hbc : bc.Sound) (env : Env)
    (db : DB) (salt : Nat) (cost : Int) (p hash c : Bytes)
    (hgen : bc.GenerateFromPassword salt p cost = Except.ok hash)
    (hget : (DB.Get env.readHash db).2.1 = some hash) :
    (c = p → (VerifyStartupPassphrase bc env db c).1 = none) ∧
    ((VerifyStartupPassphrase bc env db c).1 = none ↔
      bc.CompareHashAndPassword hash c = none) ∧
    (bc.CompareHashAndPassword hash c ≠ none →
      (VerifyStartupPassphrase bc env db c).1 = some Error.ErrInvalidPassphrase) ∧
    (VerifyStartupPassphrase bc env db c).2 = db ∧
    (∀ (env2 : Env) (db2 : DB), (DB.Get env2.readHash db2).2.1 = some hash →
      (VerifyStartupPassphrase bc env2 db2 c).1 = (VerifyStartupPassphrase bc env db c).1) := by
  obtain ⟨hr, hs⟩ := get_found _ _ _ hget
  refine ⟨?_, ?_, ?_, verify_db bc env db c, ?_⟩
  · intro hc
    subst hc
    rw [verify_present bc env db c hash hr hs, if_pos (hbc salt c cost hash hgen)]
  · rw [verify_present bc env db c hash hr hs]
    by_cases hcmp : bc.CompareHashAndPassword hash c = none
    · rw [if_pos hcmp]
      exact ⟨fun _ => hcmp, fun _ => rfl⟩
    · rw [if_neg hcmp]
      exact ⟨fun h => (by cases h), fun h => absurd h hcmp⟩
  · intro hcmp
    rw [verify_present bc env db c hash hr hs, if_neg hcmp]
  · intro env2 db2 hget2
    obtain ⟨hr2, hs2⟩ := get_found _ _ _ hget2
    rw [verify_present bc env db c hash hr hs, verify_present bc env2 db2 c hash hr2 hs2]

theorem verifyStartupPassphrase_hash_stored_witness :
    (([97, 98] : Bytes) = [97, 98] →
      (VerifyStartupPassphrase keyBcrypt (Env.ok 0)
        ⟨some (7 :: keyMaterial [97, 98]), some true, some 0⟩ [97, 98]).1 = none) ∧
    (VerifyStartupPassphrase keyBcrypt (Env.ok 0)
        ⟨some (7 :: keyMaterial [97, 98]), some true, some 0⟩ [97, 98]).2 =
      ⟨some (7 :: keyMaterial [97, 98]), some true, some 0⟩ :=
  have h := verifyStartupPassphrase_hash_stored keyBcrypt keyBcrypt_sound (Env.ok 0)
    ⟨some (7 :: keyMaterial [97, 98]), some true, some 0⟩ 7 DefaultCost [97, 98]
    (7 :: keyMaterial [97, 98]) [97, 98] rfl rfl
  ⟨h.1, h.2.2.2.1⟩

/-- C3, as stated, fails where the hashing of the new passphrase fails: the
old passphrase verifies and every store operation works, yet a new
passphrase of 73 bytes is refused by the password hash and
`ChangeStartupPassphrase` returns that error with the store untouched. -/
theorem changeStartupPassphrase_hash_error :
    (VerifyStartupPassphrase toyBcrypt (Env.ok 0) DB.empty []).1 = none ∧
    List.replicate 73 (97 : UInt8) ≠ [] ∧
    ChangeStartupPassphrase toyBcrypt (Env.ok 0) DB.empty [] (List.replicate 73 97) 0 =
      (some (Error.bcrypt 1), DB.empty) := by
  refine ⟨by decide, by decide, ?_⟩
  rw [change_of_verify_ok _ _ _ _ _ _ (by decide) (by decide)]
  rfl

/-- C3, amended: for every old passphrase, non-empty new passphrase and kind,
if the verification of the old passphrase succeeds, the password hash
answers a hash of the new passphrase and no store write fails, then
`ChangeStartupPassphrase` returns nil and afterwards the store holds that
hash, `IsStartupSecuritySet` is true and `StartupSecurityType` is the kind. -/
theorem changeStartupPassphrase_stores (bc : Bcrypt) (env : Env) (db : DB)
    (old new hash : Bytes) (kind PassphraseTypePass : Int)
    (hnew : new ≠ [])
    (hver : (VerifyStartupPassphrase bc env db old).1 = none)
    (hgen : bc.GenerateFromPassword env.salt new DefaultCost = Except.ok hash)
    (hwh : env.writeHash = none) (hwf : env.writeFlag = none) (hwt : env.writeType = none) :
    (ChangeStartupPassphrase bc env db old new kind).1 = none ∧
    (ChangeStartupPassphrase bc env db old new kind).2.startupPassphraseHash = some hash ∧
    IsStartupSecuritySet (ChangeStartupPassphrase bc env db old new kind).2 = true ∧
    StartupSecurityType PassphraseTypePass
      (ChangeStartupPassphrase bc env db old new kind).2 = kind := by
  rw [change_of_verify_ok bc env db old new kind hnew hver, hgen, hwh, hwf, hwt]
  simp [SaveUserConfigValue, IsStartupSecuritySet, StartupSecurityType,
    ReadBoolConfigValueForKey, ReadInt32ConfigValueForKey]

theorem changeStartupPassphrase_stores_witness :
    (ChangeStartupPassphrase toyBcrypt (Env.ok 7) DB.empty [] [97, 98, 99] 0).1 = none ∧
    (ChangeStartupPassphrase toyBcrypt (Env.ok 7) DB.empty [] [97, 98, 99]
      0).2.startupPassphraseHash = some [7, 97, 98, 99] ∧
    IsStartupSecuritySet
      (ChangeStartupPassphrase toyBcrypt (Env.ok 7) DB.empty [] [97, 98, 99] 0).2 = true ∧
    StartupSecurityType 1
      (ChangeStartupPassphrase toyBcrypt (Env.ok 7) DB.empty [] [97, 98, 99] 0).2 = 0 :=
  changeStartupPassphrase_stores toyBcrypt (Env.ok 7) DB.empty [] [97, 98, 99]
    [7, 97, 98, 99] 0 1 (by decide) (by decide) rfl rfl rfl rfl

/-- C4: for `ChangeStartupPassphrase`, `RemoveStartupPassphrase` and
`SetStartupPassphrase` (whose old passphrase is the empty one), whenever the
verification of the old passphrase fails with error `e`, the operation
returns exactly `e` and the store is the one it was before the call. -/
theorem verification_error_propagates (bc : Bcrypt) (env : Env) (db : DB)
    (old new : Bytes) (kind : Int) (e : Error)
    (hver : (VerifyStartupPassphrase bc env db old).1 = some e) :
    ChangeStartupPassphrase bc env db old new kind = (some e, db) ∧
    RemoveStartupPassphrase bc env db old = (some e, db) ∧
    (old = [] → SetStartupPassphrase bc env db new kind = (some e, db)) := by
  refine ⟨change_of_verify_error bc env db old new kind e hver,
    remove_of_verify_error bc env db old e hver, ?_⟩
  intro hold
  subst hold
  exact change_of_verify_error bc env db [] new kind e hver

theorem verification_error_propagates_witness :
    ChangeStartupPassphrase toyBcrypt (Env.ok 0) ⟨some [7, 97, 98], some true, some 0⟩
        [] [120] 1 =
      (some Error.ErrInvalidPassphrase, ⟨some [7, 97, 98], some true, some 0⟩) ∧
    RemoveStartupPassphrase toyBcrypt (Env.ok 0) ⟨some [7, 97, 98], some true, some 0⟩ [] =
      (some Error.ErrInvalidPassphrase, ⟨some [7, 97, 98], some true, some 0⟩) ∧
    (([] : Bytes) = [] →
      SetStartupPassphrase toyBcrypt (Env.ok 0) ⟨some [7, 97, 98], some true, some 0⟩
          [120] 1 =
        (some Error.ErrInvalidPassphrase, ⟨some [7, 97, 98], some true, some 0⟩)) :=
  verification_error_propagates toyBcrypt (Env.ok 0) ⟨some [7, 97, 98], some true, some 0⟩
    [] [120] 1 Error.ErrInvalidPassphrase (by decide)

/-- C5: for every store, old passphrase, non-empty new passphrase and kind, if
`ChangeStartupPassphrase old new kind` returns nil, then a following
`VerifyStartupPassphrase new` (whose lookup of the hash works, with a
password hash that accepts the passwords it hashed) returns nil. -/
theorem change_then_verify_new (bc : Bcrypt) (hbc : bc.Sound) (env env2 : Env) (db : DB)
    (old new : Bytes) (kind : Int) (hnew : new ≠ [])
    (hchg : (ChangeStartupPassphrase bc env db old new kind).1 = none)
    (hread : env2.readHash = none) :
    (VerifyStartupPassphrase bc env2
      (ChangeStartupPassphrase bc env db old new kind).2 new).1 = none := by
  obtain ⟨_, _, hash, hgen, hs⟩ := change_ok bc env db old new kind hnew hchg
  rw [verify_present bc env2 _ new hash hread hs,
    if_pos (hbc env.salt new DefaultCost hash hgen)]

theorem change_then_verify_new_witness :
    (VerifyStartupPassphrase toyBcrypt (Env.ok 0)
      (ChangeStartupPassphrase toyBcrypt (Env.ok 7) ⟨some [3, 97], some true, some 0⟩
        [97] [98, 99] 1).2 [98, 99]).1 = none :=
  change_then_verify_new toyBcrypt toyBcrypt_sound (Env.ok 7) (Env.ok 0)
    ⟨some [3, 97], some true, some 0⟩ [97] [98, 99] 1 (by decide) (by decide) rfl

/-- C6, as stated, fails at an old passphrase that `bcrypt` does not tell from
the new one.  The store holds the hash of `"a"`; `ChangeStartupPassphrase`
from `"a"` to the different passphrase `"a\x00a"` returns nil, and a following
`VerifyStartupPassphrase "a"` returns nil too. -/
theorem change_then_verify_old_accepted :
    ([97] : Bytes) ≠ [97, 0, 97] ∧
    (ChangeStartupPassphrase keyBcrypt (Env.ok 7)
      ⟨some (3 :: keyMaterial [97]), some true, some 0⟩ [97] [97, 0, 97] 1).1 = none ∧
    (VerifyStartupPassphrase keyBcrypt (Env.ok 0)
      (ChangeStartupPassphrase keyBcrypt (Env.ok 7)
        ⟨some (3 :: keyMaterial [97]), some true, some 0⟩ [97] [97, 0, 97] 1).2 [97]).1 =
      none := by
  decide

/-- C6, amended: for every store, old passphrase, new passphrase different from
the old one and kind, if `ChangeStartupPassphrase old new kind` returns nil,
then a following `VerifyStartupPassphrase old` returns an error, and
`ErrInvalidPassphrase` when its lookup of the hash works, in two cases: the
new passphrase is empty, or `bcrypt.CompareHashAndPassword` rejects `old` for
the hash generated from `new`.  When `bcrypt` accepts `old` for that hash,
the verification (its lookup working) returns nil. -/
theorem change_then_verify_old (bc : Bcrypt) (env env2 : Env) (db : DB)
    (old new hash : Bytes) (kind : Int) (hne : old ≠ new)
    (hchg : (ChangeStartupPassphrase bc env db old new kind).1 = none) :
    (new = [] →
      (VerifyStartupPassphrase bc env2
        (ChangeStartupPassphrase bc env db old new kind).2 old).1 ≠ none ∧
      (env2.readHash = none →
        (VerifyStartupPassphrase bc env2
          (ChangeStartupPassphrase bc env db old new kind).2 old).1 =
            some Error.ErrInvalidPassphrase)) ∧
    (new ≠ [] → bc.GenerateFromPassword env.salt new DefaultCost = Except.ok hash →
      (bc.CompareHashAndPassword hash old ≠ none →
        (VerifyStartupPassphrase bc env2
          (ChangeStartupPassphrase bc env db old new kind).2 old).1 ≠ none ∧
        (env2.readHash = none →
          (VerifyStartupPassphrase bc env2
            (ChangeStartupPassphrase bc env db old new kind).2 old).1 =
              some Error.ErrInvalidPassphrase)) ∧
      (bc.CompareHashAndPassword hash old = none → env2.readHash = none →
        (VerifyStartupPassphrase bc env2
          (ChangeStartupPassphrase bc env db old new kind).2 old).1 = none)) := by
  have fault : ∀ r : Option Error, (env2.readHash = none → r = some Error.ErrInvalidPassphrase) →
      (∀ code, env2.readHash = some code → r = some (Error.storm code)) →
      r ≠ none ∧ (env2.readHash = none → r = some Error.ErrInvalidPassphrase) := by
    intro r hok hbad
    refine ⟨?_, hok⟩
    cases hread : env2.readHash with
    | some code => rw [hbad code hread]; simp
    | none => rw [hok hread]; simp
  refine ⟨?_, ?_⟩
  · intro hnew
    subst hnew
    apply fault
    · intro hread
      rw [change_nil] at hchg ⊢
      obtain ⟨_, _, hs⟩ := remove_ok bc env db old hchg
      rw [verify_absent bc env2 _ old hread hs, if_neg hne]
    · intro code hread
      exact verify_read_fault bc env2 _ old code hread
  · intro hnew hgen
    obtain ⟨_, _, stored, hgen2, hs⟩ := change_ok bc env db old new kind hnew hchg
    rw [hgen] at hgen2
    cases hgen2
    refine ⟨?_, ?_⟩
    · intro hcmp
      apply fault
      · intro hread
        rw [verify_present bc env2 _ old hash hread hs, if_neg hcmp]
      · intro code hread
        exact verify_read_fault bc env2 _ old code hread
    · intro hcmp hread
      rw [verify_present bc env2 _ old hash hread hs, if_pos hcmp]

theorem change_then_verify_old_witness :
    (VerifyStartupPassphrase keyBcrypt (Env.ok 0)
      (ChangeStartupPassphrase keyBcrypt (Env.ok 7)
        ⟨some (3 :: keyMaterial [97]), some true, some 0⟩ [97] [98, 99] 1).2 [97]).1 =
      some Error.ErrInvalidPassphrase ∧
    (VerifyStartupPassphrase keyBcrypt (Env.ok 0)
      (ChangeStartupPassphrase keyBcrypt (Env.ok 7)
        ⟨some (3 :: keyMaterial [97]), some true, some 0⟩ [97] [] 1).2 [97]).1 =
      some Error.ErrInvalidPassphrase :=
  ⟨(((change_then_verify_old keyBcrypt (Env.ok 7) (Env.ok 0)
      ⟨some (3 :: keyMaterial [97]), some true, some 0⟩ [97] [98, 99]
      (7 :: keyMaterial [98, 99]) 1 (by decide) (by decide)).2 (by decide) rfl).1
      (by decide)).2 rfl,
    ((change_then_verify_old keyBcrypt (Env.ok 7) (Env.ok 0)
      ⟨some (3 :: keyMaterial [97]), some true, some 0⟩ [97] []
      [] 1 (by decide) (by decide)).1 rfl).2 rfl⟩

/-- C7, as stated, fails where the write of the flag fails: the store holds
the hash of `[97]` with security enabled, `RemoveStartupPassphrase [97]`
deletes the hash and returns nil, and `IsStartupSecuritySet` is still
true. -/
theorem removeStartupPassphrase_flag_kept :
    RemoveStartupPassphrase toyBcrypt ⟨0, none, none, some 1, none⟩
        ⟨some [7, 97], some true, some 0⟩ [97] = (none, ⟨none, some true, none⟩) ∧
    IsStartupSecuritySet (RemoveStartupPassphrase toyBcrypt ⟨0, none, none, some 1, none⟩
        ⟨some [7, 97], some true, some 0⟩ [97]).2 = true := by
  decide

/-- C7, amended: for every store and old passphrase, if
`RemoveStartupPassphrase old` returns nil, then afterwards no passphrase hash
is stored, `IsStartupSecuritySet` is false provided the write of the flag
did not fail, and `VerifyStartupPassphrase` of the empty passphrase (whose
lookup of the hash works) returns nil. -/
theorem removeStartupPassphrase_clears (bc : Bcrypt) (env env2 : Env) (db : DB)
    (old : Bytes) (h : (RemoveStartupPassphrase bc env db old).1 = none) :
    (RemoveStartupPassphrase bc env db old).2.startupPassphraseHash = none ∧
    (env.writeFlag = none →
      IsStartupSecuritySet (RemoveStartupPassphrase bc env db old).2 = false) ∧
    (env2.readHash = none →
      (VerifyStartupPassphrase bc env2 (RemoveStartupPassphrase bc env db old).2 []).1 =
        none) := by
  obtain ⟨_, _, hs⟩ := remove_ok bc env db old h
  refine ⟨hs, ?_, ?_⟩
  · intro hflag
    rw [remove_ok_state bc env db old h, hflag]
    unfold IsStartupSecuritySet ReadBoolConfigValueForKey DeleteUserConfigValueForKey
      SaveUserConfigValue
    cases env.writeType <;> rfl
  · intro hread
    rw [verify_absent bc env2 _ [] hread hs, if_pos rfl]

theorem removeStartupPassphrase_clears_witness :
    (RemoveStartupPassphrase toyBcrypt (Env.ok 0) ⟨some [7, 97], some true, some 0⟩
      [97]).2.startupPassphraseHash = none ∧
    ((Env.ok 0).writeFlag = none →
      IsStartupSecuritySet (RemoveStartupPassphrase toyBcrypt (Env.ok 0)
        ⟨some [7, 97], some true, some 0⟩ [97]).2 = false) ∧
    ((Env.ok 0).readHash = none →
      (VerifyStartupPassphrase toyBcrypt (Env.ok 0)
        (RemoveStartupPassphrase toyBcrypt (Env.ok 0) ⟨some [7, 97], some true, some 0⟩
          [97]).2 []).1 = none) :=
  removeStartupPassphrase_clears toyBcrypt (Env.ok 0) (Env.ok 0)
    ⟨some [7, 97], some true, some 0⟩ [97] (by decide)

/-- C8, as stated, fails where the write of the flag fails: on the empty store
`ChangeStartupPassphrase [] [97] 0` writes the hash, the write of the flag
fails, and the call returns nil with the hash stored and the flag not
written. -/
theorem changeStartupPassphrase_applies_partially :
    ChangeStartupPassphrase toyBcrypt ⟨7, none, none, some 1, none⟩ DB.empty [] [97] 0 =
      (none, ⟨some [7, 97], none, some 0⟩) := by
  decide

/-- C8, amended: for `ChangeStartupPassphrase` and `RemoveStartupPassphrase`, if
the write, respectively the deletion, of the passphrase hash fails, the
operation returns an error and the security state (hash, flag, type) is the
one before the call. -/
theorem hash_write_failure_leaves_state (bc : Bcrypt) (env : Env) (db : DB)
    (old new : Bytes) (kind : Int) (code : Nat) (hw : env.writeHash = some code) :
    (ChangeStartupPassphrase bc env db old new kind).1 ≠ none ∧
    (ChangeStartupPassphrase bc env db old new kind).2 = db ∧
    (RemoveStartupPassphrase bc env db old).1 ≠ none ∧
    (RemoveStartupPassphrase bc env db old).2 = db := by
  have hrem := remove_write_fault bc env db old code hw
  have hchg : (ChangeStartupPassphrase bc env db old new kind).1 ≠ none := by
    intro h
    by_cases hnew : new = []
    · subst hnew
      rw [change_nil] at h
      exact hrem.1 h
    · obtain ⟨_, hnone, _⟩ := change_ok bc env db old new kind hnew h
      rw [hw] at hnone
      cases hnone
  exact ⟨hchg, change_error_state bc env db old new kind hchg, hrem.1, hrem.2⟩

theorem hash_write_failure_leaves_state_witness :
    (ChangeStartupPassphrase toyBcrypt ⟨7, none, some 5, none, none⟩
      ⟨some [3, 97], some true, some 0⟩ [97] [98] 1).1 ≠ none ∧
    (ChangeStartupPassphrase toyBcrypt ⟨7, none, some 5, none, none⟩
      ⟨some [3, 97], some true, some 0⟩ [97] [98] 1).2 = ⟨some [3, 97], some true, some 0⟩ ∧
    (RemoveStartupPassphrase toyBcrypt ⟨7, none, some 5, none, none⟩
      ⟨some [3, 97], some true, some 0⟩ [97]).1 ≠ none ∧
    (RemoveStartupPassphrase toyBcrypt ⟨7, none, some 5, none, none⟩
      ⟨some [3, 97], some true, some 0⟩ [97]).2 = ⟨some [3, 97], some true, some 0⟩ :=
  hash_write_failure_leaves_state toyBcrypt ⟨7, none, some 5, none, none⟩
    ⟨some [3, 97], some true, some 0⟩ [97] [98] 1 5 rfl

/-- C9, as stated, fails where the write of the flag fails: the invariant holds
in the empty store and not after a `SetStartupPassphrase` whose write of the
flag failed. -/
theorem securityInvariant_broken :
    SecurityInvariant DB.empty ∧
    ¬ SecurityInvariant
      (SetStartupPassphrase toyBcrypt ⟨7, none, none, some 1, none⟩ DB.empty [97] 0).2 := by
  decide

/-- C9, amended: the invariant (a hash is stored if and only if
`IsStartupSecuritySet` is true) holds in the empty store and is preserved by
every call of `SetStartupPassphrase`, `ChangeStartupPassphrase`,
`RemoveStartupPassphrase` and `VerifyStartupPassphrase`, whatever their
arguments and their result, provided the write of the flag does not fail
during the call. -/
theorem securityInvariant_preserved (bc : Bcrypt) (env : Env) (db : DB)
    (old new : Bytes) (kind : Int)
    (hinv : SecurityInvariant db) (hflag : env.writeFlag = none) :
    SecurityInvariant DB.empty ∧
    SecurityInvariant (SetStartupPassphrase bc env db new kind).2 ∧
    SecurityInvariant (ChangeStartupPassphrase bc env db old new kind).2 ∧
    SecurityInvariant (RemoveStartupPassphrase bc env db old).2 ∧
    SecurityInvariant (VerifyStartupPassphrase bc env db old).2 := by
  refine ⟨by decide, change_invariant bc env db [] new kind hinv hflag,
    change_invariant bc env db old new kind hinv hflag,
    remove_invariant bc env db old hinv hflag, ?_⟩
  rw [verify_db]
  exact hinv

theorem securityInvariant_preserved_witness :
    SecurityInvariant DB.empty ∧
    SecurityInvariant (SetStartupPassphrase toyBcrypt ⟨7, none, none, none, some 2⟩
      DB.empty [98] 1).2 ∧
    SecurityInvariant (ChangeStartupPassphrase toyBcrypt ⟨7, none, none, none, some 2⟩
      DB.empty [] [98] 1).2 ∧
    SecurityInvariant (RemoveStartupPassphrase toyBcrypt ⟨7, none, none, none, some 2⟩
      DB.empty []).2 ∧
    SecurityInvariant (VerifyStartupPassphrase toyBcrypt ⟨7, none, none, none, some 2⟩
      DB.empty []).2 :=
  securityInvariant_preserved toyBcrypt ⟨7, none, none, none, some 2⟩ DB.empty [] [98] 1
    (by decide) rfl

/-! ## Opening the wallets -/

theorem anyIsSyncing_of_mem (wallets : WalletMap) (entry : Int × Asset)
    (hmem : entry ∈ wallets) (hsync : entry.2.IsSyncing = true) :
    anyIsSyncing wallets = true := by
  induction wallets with
  | nil => cases hmem
  | cons head rest ih =>
    obtain ⟨id, wallet⟩ := head
    unfold anyIsSyncing
    rcases List.mem_cons.1 hmem with h | h
    · subst h
      simp [hsync]
    · simp [ih h]

/-- When a wallet of the DCR registry reports a sync in progress,
`OpenWallets` fails with `ErrSyncAlreadyInProgress` whatever the passphrase,
the password hash and the store do, and hands back the multiwallet as it
received it: no wallet has received an `OpenWallet` call. -/
theorem openWallets_dcr_syncing (bc : Bcrypt) (env : Env) (mw : MultiWallet)
    (startupPassphrase : Bytes) (entry : Int × Asset)
    (hmem : entry ∈ mw.Assets.DCR.Wallets) (hsync : entry.2.IsSyncing = true) :
    OpenWallets bc env mw startupPassphrase = (some Error.ErrSyncAlreadyInProgress, mw) := by
  unfold OpenWallets
  rw [if_pos (anyIsSyncing_of_mem _ entry hmem hsync)]

/-- C10 at a registry whose only wallet is a BTC wallet that reports a sync in
progress: `OpenWallets` does not fail with `ErrSyncAlreadyInProgress`, it
verifies the passphrase, calls `OpenWallet` on the syncing wallet and
returns nil. -/
theorem openWallets_btc_syncing :
    ({ ID := 1, syncing := true } : Asset).IsSyncing = true ∧
    OpenWallets toyBcrypt (Env.ok 0)
        ⟨DB.empty, ⟨⟨[], []⟩, ⟨[(1, { ID := 1, syncing := true })], []⟩⟩⟩ [] =
      (none, ⟨DB.empty, ⟨⟨[], []⟩, ⟨[(1, { ID := 1, syncing := true, opened := true, openCalls := 1 })], []⟩⟩⟩) ∧
    OpenWallets toyBcrypt (Env.ok 0)
        ⟨DB.empty, ⟨⟨[], []⟩, ⟨[(1, { ID := 1, syncing := true })], []⟩⟩⟩ [120] =
      (some Error.ErrInvalidPassphrase,
        ⟨DB.empty, ⟨⟨[], []⟩, ⟨[(1, { ID := 1, syncing := true })], []⟩⟩⟩) := by
  decide

theorem anyIsSyncing_false (wallets : WalletMap)
    (h : ∀ entry, entry ∈ wallets → entry.2.IsSyncing = false) :
    anyIsSyncing wallets = false := by
  induction wallets with
  | nil => rfl
  | cons head rest ih =>
    obtain ⟨id, wallet⟩ := head
    unfold anyIsSyncing
    have hw : wallet.IsSyncing = false := h (id, wallet) (List.mem_cons_self _ _)
    simp only [hw, Bool.false_eq_true, if_false]
    exact ih (fun entry hmem => h entry (List.mem_cons_of_mem _ hmem))

/-- `OpenWallets` when no DCR wallet is syncing and the verification of the
passphrase fails. -/
theorem openWallets_of_verify_error (bc : Bcrypt) (env : Env) (mw : MultiWallet)
    (pass : Bytes) (e : Error)
    (hsync : anyIsSyncing mw.Assets.DCR.Wallets = false)
    (hver : (VerifyStartupPassphrase bc env mw.db pass).1 = some e) :
    OpenWallets bc env mw pass = (some e, mw) := by
  unfold OpenWallets
  rw [hsync, verify_eq bc env mw.db pass _ hver]
  simp

/-- `OpenWallets` when no DCR wallet is syncing and the passphrase
verifies. -/
theorem openWallets_of_verify_ok (bc : Bcrypt) (env : Env) (mw : MultiWallet)
    (pass : Bytes)
    (hsync : anyIsSyncing mw.Assets.DCR.Wallets = false)
    (hver : (VerifyStartupPassphrase bc env mw.db pass).1 = none) :
    OpenWallets bc env mw pass =
      match openEach mw.Assets.DCR.Wallets with
      | (some err, dcrWallets) =>
        (some err, ⟨mw.db, ⟨⟨dcrWallets, mw.Assets.DCR.BadWallets⟩, mw.Assets.BTC⟩⟩)
      | (none, dcrWallets) =>
        ((openEach mw.Assets.BTC.Wallets).1,
          ⟨mw.db, ⟨⟨dcrWallets, mw.Assets.DCR.BadWallets⟩,
            ⟨(openEach mw.Assets.BTC.Wallets).2, mw.Assets.BTC.BadWallets⟩⟩⟩) := by
  unfold OpenWallets
  rw [hsync, verify_eq bc env mw.db pass _ hver]
  simp only [Bool.false_eq_true, if_false]

theorem openWallet_ok (wallet : Asset) (h : wallet.OpenWallet.1 = none) :
    wallet.OpenWallet = (none, wallet.afterOpen) := by
  unfold Asset.OpenWallet at h ⊢
  unfold Asset.afterOpen
  split
  · rename_i code hf
    simp [hf] at h
  · rfl

theorem openWallet_fault (wallet : Asset) (e : Error) (h : wallet.OpenWallet.1 = some e) :
    wallet.OpenWallet = (some e, wallet.afterFailedOpen) := by
  unfold Asset.OpenWallet at h ⊢
  unfold Asset.afterFailedOpen
  split
  · rename_i code hf
    simp only [hf, Option.some.injEq] at h
    rw [h]
  · rename_i hf
    simp [hf] at h

/-- The opening loop when every wallet opens. -/
theorem openEach_ok (wallets : WalletMap)
    (h : ∀ entry, entry ∈ wallets → entry.2.OpenWallet.1 = none) :
    openEach wallets = (none, allOpened wallets) := by
  induction wallets with
  | nil => rfl
  | cons head rest ih =>
    obtain ⟨id, wallet⟩ := head
    unfold openEach
    rw [openWallet_ok wallet (h (id, wallet) (List.mem_cons_self _ _)),
      ih (fun entry hmem => h entry (List.mem_cons_of_mem _ hmem))]
    rfl

/-- The opening loop when the wallets before `entry` open and `entry` does
not. -/
theorem openEach_fault (before after : WalletMap) (id : Int) (wallet : Asset) (e : Error)
    (h : ∀ entry, entry ∈ before → entry.2.OpenWallet.1 = none)
    (hw : wallet.OpenWallet.1 = some e) :
    openEach (before ++ (id, wallet) :: after) =
      (some e, allOpened before ++ (id, wallet.afterFailedOpen) :: after) := by
  induction before with
  | nil =>
    simp only [List.nil_append]
    unfold openEach
    rw [openWallet_fault wallet e hw]
    rfl
  | cons head rest ih =>
    obtain ⟨id2, wallet2⟩ := head
    simp only [List.cons_append]
    unfold openEach
    rw [openWallet_ok wallet2 (h (id2, wallet2) (List.mem_cons_self _ _)),
      ih (fun entry hmem => h entry (List.mem_cons_of_mem _ hmem))]
    rfl

theorem not_syncing_dcr (mw : MultiWallet)
    (hsync : ∀ entry, entry ∈ mw.liveWallets → entry.2.IsSyncing = false) :
    anyIsSyncing mw.Assets.DCR.Wallets = false :=
  anyIsSyncing_false _ (fun entry hmem => hsync entry (List.mem_append_left _ hmem))

/-- C11: for every registry in which no wallet is syncing, if a passphrase hash
is stored and the password hash rejects the supplied passphrase for it,
`OpenWallets` fails with `ErrInvalidPassphrase` and hands back the
multiwallet as it received it: no wallet has received an `OpenWallet` call
and none has become open. -/
theorem openWallets_wrong_passphrase (bc : Bcrypt) (env : Env) (mw : MultiWallet)
    (pass hash : Bytes)
    (hsync : ∀ entry, entry ∈ mw.liveWallets → entry.2.IsSyncing = false)
    (hget : (DB.Get env.readHash mw.db).2.1 = some hash)
    (hcmp : bc.CompareHashAndPassword hash pass ≠ none) :
    OpenWallets bc env mw pass = (some Error.ErrInvalidPassphrase, mw) := by
  obtain ⟨hr, hs⟩ := get_found _ _ _ hget
  apply openWallets_of_verify_error bc env mw pass _ (not_syncing_dcr mw hsync)
  rw [verify_present bc env mw.db pass hash hr hs, if_neg hcmp]

theorem openWallets_wrong_passphrase_witness :
    OpenWallets toyBcrypt (Env.ok 0)
        ⟨(SetStartupPassphrase toyBcrypt (Env.ok 7) DB.empty [97, 98, 99] 0).2,
          ⟨⟨[(1, { ID := 1 })], []⟩, ⟨[(2, { ID := 2 })], []⟩⟩⟩
        [119, 114, 111, 110, 103] =
      (some Error.ErrInvalidPassphrase,
        ⟨(SetStartupPassphrase toyBcrypt (Env.ok 7) DB.empty [97, 98, 99] 0).2,
          ⟨⟨[(1, { ID := 1 })], []⟩, ⟨[(2, { ID := 2 })], []⟩⟩⟩) :=
  openWallets_wrong_passphrase toyBcrypt (Env.ok 0)
    ⟨(SetStartupPassphrase toyBcrypt (Env.ok 7) DB.empty [97, 98, 99] 0).2,
      ⟨⟨[(1, { ID := 1 })], []⟩, ⟨[(2, { ID := 2 })], []⟩⟩⟩
    [119, 114, 111, 110, 103] [7, 97, 98, 99] (by decide) (by decide) (by decide)

/-- C12: for every registry in which no wallet is syncing and every passphrase
that verifies, if the `OpenWallet` of every wallet of the live registry
succeeds, `OpenWallets` returns nil and every DCR and every BTC wallet of the
live registry has received exactly one `OpenWallet` call and is open, while
the bad registries and the store are as before. -/
theorem openWallets_opens_all (bc : Bcrypt) (env : Env) (mw : MultiWallet) (pass : Bytes)
    (hsync : ∀ entry, entry ∈ mw.liveWallets → entry.2.IsSyncing = false)
    (hver : (VerifyStartupPassphrase bc env mw.db pass).1 = none)
    (hopen : ∀ entry, entry ∈ mw.liveWallets → entry.2.OpenWallet.1 = none) :
    OpenWallets bc env mw pass =
      (none, ⟨mw.db, ⟨⟨allOpened mw.Assets.DCR.Wallets, mw.Assets.DCR.BadWallets⟩,
        ⟨allOpened mw.Assets.BTC.Wallets, mw.Assets.BTC.BadWallets⟩⟩⟩) := by
  rw [openWallets_of_verify_ok bc env mw pass (not_syncing_dcr mw hsync) hver,
    openEach_ok _ (fun entry hmem => hopen entry (List.mem_append_left _ hmem)),
    openEach_ok _ (fun entry hmem => hopen entry (List.mem_append_right _ hmem))]

theorem openWallets_opens_all_witness :
    OpenWallets toyBcrypt (Env.ok 0)
        ⟨DB.empty, ⟨⟨[(1, { ID := 1 }), (3, { ID := 3 })], [(4, some { ID := 4 })]⟩,
          ⟨[(2, { ID := 2 })], [(5, none)]⟩⟩⟩ [] =
      (none, ⟨DB.empty,
        ⟨⟨allOpened [(1, { ID := 1 }), (3, { ID := 3 })], [(4, some { ID := 4 })]⟩,
          ⟨allOpened [(2, { ID := 2 })], [(5, none)]⟩⟩⟩) :=
  openWallets_opens_all toyBcrypt (Env.ok 0)
    ⟨DB.empty, ⟨⟨[(1, { ID := 1 }), (3, { ID := 3 })], [(4, some { ID := 4 })]⟩,
      ⟨[(2, { ID := 2 })], [(5, none)]⟩⟩⟩ [] (by decide) (by decide) (by decide)

/-- C13, as stated, fails where a DCR wallet is syncing: the passphrase
verifies and the `OpenWallet` of the only wallet would fail with its own
error, yet `OpenWallets` returns `ErrSyncAlreadyInProgress` and calls
`OpenWallet` on no wallet. -/
theorem openWallets_syncing_before_failure :
    (VerifyStartupPassphrase toyBcrypt (Env.ok 0) DB.empty []).1 = none ∧
    ({ ID := 1, syncing := true, openFault := some 9 } : Asset).OpenWallet.1 =
      some (Error.wallet 9) ∧
    OpenWallets toyBcrypt (Env.ok 0)
        ⟨DB.empty, ⟨⟨[(1, { ID := 1, syncing := true, openFault := some 9 })], []⟩,
          ⟨[], []⟩⟩⟩ [] =
      (some Error.ErrSyncAlreadyInProgress,
        ⟨DB.empty, ⟨⟨[(1, { ID := 1, syncing := true, openFault := some 9 })], []⟩,
          ⟨[], []⟩⟩⟩) := by
  decide

theorem allOpened_append (xs ys : WalletMap) :
    allOpened (xs ++ ys) = allOpened xs ++ allOpened ys := by
  simp [allOpened]

/-- C13, amended: for every registry in which no wallet is syncing and every
passphrase that verifies, if the `OpenWallet` of some wallet fails, then with
`wallet` the first wallet in the order of the run (DCR wallets, then BTC
wallets) whose `OpenWallet` fails with `e`, `OpenWallets` returns `e`
unchanged; the wallets before it have received one successful call and stay
open, `wallet` has received one call, the wallets after it are untouched,
and the store and the bad registries are as before. -/
theorem openWallets_first_failure (bc : Bcrypt) (env : Env) (mw : MultiWallet)
    (pass : Bytes) (before after : WalletMap) (id : Int) (wallet : Asset) (e : Error)
    (hsync : ∀ entry, entry ∈ mw.liveWallets → entry.2.IsSyncing = false)
    (hver : (VerifyStartupPassphrase bc env mw.db pass).1 = none)
    (hsplit : mw.liveWallets = before ++ (id, wallet) :: after)
    (hbefore : ∀ entry, entry ∈ before → entry.2.OpenWallet.1 = none)
    (hfail : wallet.OpenWallet.1 = some e) :
    (OpenWallets bc env mw pass).1 = some e ∧
    (OpenWallets bc env mw pass).2.liveWallets =
      allOpened before ++ (id, wallet.afterFailedOpen) :: after ∧
    (OpenWallets bc env mw pass).2.db = mw.db ∧
    (OpenWallets bc env mw pass).2.Assets.DCR.BadWallets = mw.Assets.DCR.BadWallets ∧
    (OpenWallets bc env mw pass).2.Assets.BTC.BadWallets = mw.Assets.BTC.BadWallets := by
  rw [openWallets_of_verify_ok bc env mw pass (not_syncing_dcr mw hsync) hver]
  unfold MultiWallet.liveWallets at hsplit ⊢
  rcases List.append_eq_append_iff.1 hsplit with ⟨mid, hb, hbtc⟩ | ⟨mid, hdcr, hrest⟩
  · -- the failing wallet is a BTC wallet
    have hdcrok : ∀ entry, entry ∈ mw.Assets.DCR.Wallets → entry.2.OpenWallet.1 = none :=
      fun entry hmem => hbefore entry (by rw [hb]; exact List.mem_append_left _ hmem)
    have hmidok : ∀ entry, entry ∈ mid → entry.2.OpenWallet.1 = none :=
      fun entry hmem => hbefore entry (by rw [hb]; exact List.mem_append_right _ hmem)
    rw [openEach_ok _ hdcrok, hbtc, openEach_fault mid after id wallet e hmidok hfail, hb,
      allOpened_append]
    simp
  · cases mid with
    | nil =>
      -- the failing wallet is the first BTC wallet
      simp only [List.append_nil, List.nil_append] at hdcr hrest
      have hdcrok : ∀ entry, entry ∈ mw.Assets.DCR.Wallets → entry.2.OpenWallet.1 = none :=
        fun entry hmem => hbefore entry (by rw [← hdcr]; exact hmem)
      have hone := openEach_fault [] after id wallet e (fun _ h => by cases h) hfail
      simp only [List.nil_append] at hone
      rw [openEach_ok _ hdcrok, ← hrest, hone, hdcr]
      simp [allOpened]
    | cons head rest =>
      -- the failing wallet is a DCR wallet
      simp only [List.cons_append, List.cons.injEq] at hrest
      obtain ⟨hhead, hafter⟩ := hrest
      subst hhead
      rw [hdcr, openEach_fault before rest id wallet e hbefore hfail, hafter]
      simp

theorem openWallets_first_failure_witness :
    (OpenWallets toyBcrypt (Env.ok 0)
        ⟨DB.empty, ⟨⟨[(1, { ID := 1 }), (3, { ID := 3, openFault := some 9 })], []⟩,
          ⟨[(2, { ID := 2 })], []⟩⟩⟩ []).1 = some (Error.wallet 9) ∧
    (OpenWallets toyBcrypt (Env.ok 0)
        ⟨DB.empty, ⟨⟨[(1, { ID := 1 }), (3, { ID := 3, openFault := some 9 })], []⟩,
          ⟨[(2, { ID := 2 })], []⟩⟩⟩ []).2.liveWallets =
      allOpened [(1, { ID := 1 })] ++
        (3, ({ ID := 3, openFault := some 9 } : Asset).afterFailedOpen) ::
          [(2, { ID := 2 })] :=
  have h := openWallets_first_failure toyBcrypt (Env.ok 0)
    ⟨DB.empty, ⟨⟨[(1, { ID := 1 }), (3, { ID := 3, openFault := some 9 })], []⟩,
      ⟨[(2, { ID := 2 })], []⟩⟩⟩ [] [(1, { ID := 1 })] [(2, { ID := 2 })] 3
    { ID := 3, openFault := some 9 } (Error.wallet 9)
    (by decide) (by decide) (by decide) (by decide) (by decide)
  ⟨h.1, h.2.1⟩

/-! ## Counts over the registry -/

theorem toInt32_of_fits (n : Int) (h0 : 0 ≤ n) (h1 : n < 2147483648) : toInt32 n = n := by
  unfold toInt32
  omega

theorem mapDelete_length {α : Type} (m : List (Int × α)) (k : Int)
    (hnodup : (mapKeys m).Nodup) (hmem : k ∈ mapKeys m) :
    (mapDelete m k).length + 1 = m.length := by
  induction m with
  | nil => cases hmem
  | cons head rest ih =>
    obtain ⟨k2, v2⟩ := head
    simp only [mapKeys, List.map_cons, List.nodup_cons, List.mem_cons] at hnodup hmem
    by_cases hk : k2 = k
    · subst hk
      have hall : ∀ entry, entry ∈ rest → (!decide (entry.1 = k2)) = true := by
        intro entry hentry
        have hne : entry.1 ≠ k2 :=
          fun h => hnodup.1 (h ▸ List.mem_map_of_mem Prod.fst hentry)
        simp [hne]
      have hrest : List.filter (fun entry => !decide (entry.1 = k2)) rest = rest :=
        List.filter_eq_self.2 hall
      unfold mapDelete
      rw [List.filter_cons_of_neg (by simp), hrest]
      rfl
    · have hrest : k ∈ mapKeys rest := by
        rcases hmem with h | h
        · exact absurd h.symm hk
        · exact h
      have hlen := ih hnodup.2 hrest
      unfold mapDelete at hlen ⊢
      rw [List.filter_cons_of_pos (by simp [hk]), List.length_cons, hlen]
      rfl

/-- C14: for every registry state (with fewer than `2^31` live wallets, where
the conversion to `int32` is exact) `LoadedWalletsCount` is the number of
DCR wallets plus the number of BTC wallets of the live registry; it is the
same whatever the bad registries hold, and deleting a key from a live map
lowers it by exactly one. -/
theorem loadedWalletsCount_eq (mw : MultiWallet)
    (hfit : mw.Assets.liveCount < 2147483648) :
    LoadedWalletsCount mw = (mw.Assets.liveCount : Int) ∧
    (∀ dcrBad btcBad : BadWalletMap,
      LoadedWalletsCount
        ⟨mw.db, ⟨⟨mw.Assets.DCR.Wallets, dcrBad⟩, ⟨mw.Assets.BTC.Wallets, btcBad⟩⟩⟩ =
          LoadedWalletsCount mw) ∧
    (∀ k, (mapKeys mw.Assets.DCR.Wallets).Nodup → k ∈ mapKeys mw.Assets.DCR.Wallets →
      LoadedWalletsCount
        ⟨mw.db, ⟨⟨mapDelete mw.Assets.DCR.Wallets k, mw.Assets.DCR.BadWallets⟩,
          mw.Assets.BTC⟩⟩ = LoadedWalletsCount mw - 1) ∧
    (∀ k, (mapKeys mw.Assets.BTC.Wallets).Nodup → k ∈ mapKeys mw.Assets.BTC.Wallets →
      LoadedWalletsCount
        ⟨mw.db, ⟨mw.Assets.DCR,
          ⟨mapDelete mw.Assets.BTC.Wallets k, mw.Assets.BTC.BadWallets⟩⟩⟩ =
            LoadedWalletsCount mw - 1) := by
  unfold Assets.liveCount at hfit ⊢
  unfold LoadedWalletsCount
  refine ⟨?_, fun _ _ => rfl, ?_, ?_⟩
  · rw [toInt32_of_fits _ (by omega) (by omega)]
    omega
  · intro k hnodup hmem
    have hlen := mapDelete_length _ k hnodup hmem
    simp only []
    rw [toInt32_of_fits _ (by omega) (by omega), toInt32_of_fits _ (by omega) (by omega)]
    omega
  · intro k hnodup hmem
    have hlen := mapDelete_length _ k hnodup hmem
    simp only []
    rw [toInt32_of_fits _ (by omega) (by omega), toInt32_of_fits _ (by omega) (by omega)]
    omega

theorem loadedWalletsCount_eq_witness :
    LoadedWalletsCount
        ⟨DB.empty, ⟨⟨[(1, { ID := 1 }), (3, { ID := 3 })], [(4, none)]⟩,
          ⟨[(2, { ID := 2 })], [(5, none)]⟩⟩⟩ =
      ((Assets.liveCount
        ⟨⟨[(1, { ID := 1 }), (3, { ID := 3 })], [(4, none)]⟩,
          ⟨[(2, { ID := 2 })], [(5, none)]⟩⟩ : Nat) : Int) :=
  (loadedWalletsCount_eq
    ⟨DB.empty, ⟨⟨[(1, { ID := 1 }), (3, { ID := 3 })], [(4, none)]⟩,
      ⟨[(2, { ID := 2 })], [(5, none)]⟩⟩⟩ (by decide)).1

theorem openedIDs_foldl (wallets : WalletMap) (acc : List Int) :
    wallets.foldl
        (fun walletIDs entry =>
          if entry.2.WalletOpened then walletIDs ++ [entry.2.ID] else walletIDs) acc =
      acc ++ (wallets.filter (fun entry => entry.2.WalletOpened)).map (fun entry => entry.2.ID) := by
  induction wallets generalizing acc with
  | nil => simp
  | cons head rest ih =>
    rw [List.foldl_cons, ih]
    by_cases h : head.2.WalletOpened = true
    · simp [h]
    · simp [h]

/-- `OpenedWalletIDsRaw` lists, in the order of the map, the `ID` of each DCR
wallet of the live registry that reports itself open. -/
theorem openedWalletIDsRaw_dcr (mw : MultiWallet) :
    OpenedWalletIDsRaw mw =
      (mw.Assets.DCR.Wallets.filter (fun entry => entry.2.WalletOpened)).map
        (fun entry => entry.2.ID) := by
  unfold OpenedWalletIDsRaw
  rw [openedIDs_foldl]
  rfl

/-- C15 at a registry whose only wallet is the BTC wallet 2, after
`OpenWallets` has opened it: the wallet is in the live registry with its
opened flag set and counts as loaded, yet `OpenedWalletIDsRaw` is empty and
`OpenedWalletsCount` is 0. -/
theorem openedWalletIDsRaw_btc_missing :
    (OpenWallets toyBcrypt (Env.ok 0)
      ⟨DB.empty, ⟨⟨[], []⟩, ⟨[(2, { ID := 2 })], []⟩⟩⟩ []).2.Assets.BTC.Wallets =
        [(2, { ID := 2, opened := true, openCalls := 1 })] ∧
    OpenedWalletIDsRaw (OpenWallets toyBcrypt (Env.ok 0)
      ⟨DB.empty, ⟨⟨[], []⟩, ⟨[(2, { ID := 2 })], []⟩⟩⟩ []).2 = [] ∧
    OpenedWalletsCount (OpenWallets toyBcrypt (Env.ok 0)
      ⟨DB.empty, ⟨⟨[], []⟩, ⟨[(2, { ID := 2 })], []⟩⟩⟩ []).2 = 0 ∧
    LoadedWalletsCount (OpenWallets toyBcrypt (Env.ok 0)
      ⟨DB.empty, ⟨⟨[], []⟩, ⟨[(2, { ID := 2 })], []⟩⟩⟩ []).2 = 1 := by
  decide

/-- C16 at a registry with no DCR wallet and the open BTC wallet 2, whose
record carries the encrypted seed `{1, 2}`: `LoadedWalletsCount` is 1, the
wallet is open and its seed is not empty, and `NumWalletsNeedingSeedBackup`
is 0, the loop ranging over the DCR registry only.  At the open DCR wallet 1
with a zero-length seed that is not nil the count is 1, the loop testing
`EncryptedSeed != nil` where the info page tests `len(EncryptedSeed) > 0`. -/
theorem numWalletsNeedingSeedBackup_btc_missing :
    LoadedWalletsCount
      ⟨DB.empty, ⟨⟨[], []⟩,
        ⟨[(2, { ID := 2, opened := true, EncryptedSeed := some [1, 2] })], []⟩⟩⟩ = 1 ∧
    NumWalletsNeedingSeedBackup
      ⟨DB.empty, ⟨⟨[], []⟩,
        ⟨[(2, { ID := 2, opened := true, EncryptedSeed := some [1, 2] })], []⟩⟩⟩ = 0 ∧
    NumWalletsNeedingSeedBackup
      ⟨DB.empty, ⟨⟨[(1, { ID := 1, opened := true, EncryptedSeed := some [] })], []⟩,
        ⟨[], []⟩⟩⟩ = 1 := by
  decide

theorem seedBackup_foldl (wallets : WalletMap) (acc : Nat)
    (hfit : acc + wallets.length < 2147483648) :
    wallets.foldl
        (fun backupsNeeded entry =>
          if entry.2.WalletOpened && entry.2.EncryptedSeed ≠ none then
            toInt32 (backupsNeeded + 1)
          else backupsNeeded) (acc : Int) =
      ((acc + (wallets.filter
        (fun entry => entry.2.WalletOpened && entry.2.EncryptedSeed ≠ none)).length : Nat) :
          Int) := by
  induction wallets generalizing acc with
  | nil => simp
  | cons head rest ih =>
    rw [List.foldl_cons]
    simp only [List.length_cons] at hfit
    by_cases h : (head.2.WalletOpened && decide (head.2.EncryptedSeed ≠ none)) = true
    · rw [if_pos h, toInt32_of_fits _ (by omega) (by omega)]
      have hstep := ih (acc + 1) (by omega)
      rw [List.filter_cons, if_pos h, List.length_cons]
      rw [show ((acc : Int) + 1) = ((acc + 1 : Nat) : Int) by omega, hstep]
      congr 1
      omega
    · rw [if_neg h, List.filter_cons, if_neg h]
      exact ih acc (by omega)

/-- What the loop of `NumWalletsNeedingSeedBackup` computes (with fewer than
`2^31` DCR wallets): the number of wallets of the DCR registry that are open
and whose `EncryptedSeed` is not nil. -/
theorem numWalletsNeedingSeedBackup_eq (mw : MultiWallet)
    (hfit : mw.Assets.DCR.Wallets.length < 2147483648) :
    NumWalletsNeedingSeedBackup mw =
      ((mw.Assets.DCR.Wallets.filter
        (fun entry => entry.2.WalletOpened && entry.2.EncryptedSeed ≠ none)).length : Int) := by
  unfold NumWalletsNeedingSeedBackup
  have h := seedBackup_foldl mw.Assets.DCR.Wallets 0 (by omega)
  simp only [Nat.cast_zero, Nat.zero_add] at h
  exact h

/-! ## Wallet names -/

theorem hasPrefix_append (start rest : String) : HasPrefix (start ++ rest) start = true := by
  unfold HasPrefix
  rw [String.data_append, List.isPrefixOf_iff_prefix]
  exact List.prefix_append _ _

/-- C17: for every candidate name that starts with `"wallet-"`, every content
of the store and every outcome the store lookup would have,
`WalletNameExists` returns `(false, ErrReservedWalletName)`: the store is not
asked. -/
theorem walletNameExists_reserved (nameReadable : Bool) (fault : Option Nat) (store : Store)
    (walletName rest : String) (hname : walletName = "wallet-" ++ rest) :
    WalletNameExists nameReadable fault store walletName =
      some (false, some Error.ErrReservedWalletName) := by
  subst hname
  unfold WalletNameExists
  rw [if_pos (hasPrefix_append _ _)]

theorem walletNameExists_reserved_witness :
    WalletNameExists false (some 3) ⟨[⟨1, "wallet-5", AssetType.DCRWalletAsset⟩], []⟩
        "wallet-5" =
      some (false, some Error.ErrReservedWalletName) :=
  walletNameExists_reserved false (some 3) ⟨[⟨1, "wallet-5", AssetType.DCRWalletAsset⟩], []⟩
    "wallet-5" "5" (by decide)

theorem one_eq_none_iff (store : Store) (walletName : String) (bucket : Bucket) :
    DB.One none store walletName ⟨bucket, true⟩ = some none ↔
      ∃ record, record ∈ store.bucket bucket ∧ record.Name = walletName := by
  unfold DB.One
  simp only [Bool.not_true, Bool.false_eq_true, if_false]
  cases hfind : (store.bucket bucket).find? (fun record => decide (record.Name = walletName)) with
  | some found =>
    have hmem := List.mem_of_find?_eq_some hfind
    have hp := List.find?_some hfind
    simp only [true_iff]
    exact ⟨found, hmem, by simpa using hp⟩
  | none =>
    rw [List.find?_eq_none] at hfind
    simp only [Option.some.injEq, false_iff, reduceCtorEq]
    rintro ⟨record, hmem, hname⟩
    exact hfind record hmem (by simpa using hname)

theorem one_none_cases (store : Store) (walletName : String) (bucket : Bucket) :
    DB.One none store walletName ⟨bucket, true⟩ = some none ∨
      DB.One none store walletName ⟨bucket, true⟩ = some (some Error.ErrNotFound) := by
  unfold DB.One
  cases (store.bucket bucket).find? (fun record => decide (record.Name = walletName)) <;> simp

/-- What `WalletNameExists` does for a name that does not start with
`"wallet-"`.  Where the field cannot be read off the value handed to the
lookup, the call panics.  Where it can: when the store lookup works, the
result is `(true, nil)` if and only if a record filed under `dcr.DCRAsset`
has the name and `(false, nil)` when none has it; when the lookup fails with
another error, `(false, err)` with that error.  In no case do the saved
wallet records bear on the result. -/
theorem walletNameExists_searches_sink (nameReadable : Bool) (fault : Option Nat)
    (store : Store) (walletName : String) (hname : HasPrefix walletName "wallet-" = false) :
    (nameReadable = false → WalletNameExists nameReadable fault store walletName = none) ∧
    (nameReadable = true → fault = none →
      (WalletNameExists nameReadable fault store walletName = some (true, none) ↔
        ∃ record, record ∈ store.dcrAssets ∧ record.Name = walletName) ∧
      ((¬ ∃ record, record ∈ store.dcrAssets ∧ record.Name = walletName) →
        WalletNameExists nameReadable fault store walletName = some (false, none))) ∧
    (nameReadable = true → ∀ code, fault = some code →
      WalletNameExists nameReadable fault store walletName =
        some (false, some (Error.storm code))) ∧
    (∀ saved : List Wallet,
      WalletNameExists nameReadable fault ⟨saved, store.dcrAssets⟩ walletName =
        WalletNameExists nameReadable fault store walletName) := by
  unfold WalletNameExists
  rw [hname]
  simp only [Bool.false_eq_true, if_false]
  refine ⟨?_, ?_, ?_, ?_⟩
  · intro hread
    subst hread
    simp [DB.One]
  · intro hread hfault
    subst hread
    subst hfault
    have hiff := one_eq_none_iff store walletName Bucket.DCRAsset
    simp only [Store.bucket] at hiff
    rw [← hiff]
    rcases one_none_cases store walletName Bucket.DCRAsset with h | h
    · simp [h]
    · simp [h]
  · intro hread code hfault
    subst hread
    subst hfault
    simp [DB.One]
  · intro saved
    simp [DB.One, Store.bucket]

/-- C18 at a store in which the DCR wallet 1 is saved under the name
`"savings"` and the BTC wallet 2 under the name `"spending"`.  A lookup that
is handed a `wallet.Wallet` finds both names.  `WalletNameExists`, whose
lookup is handed a `dcr.DCRAsset`, under which no record is filed, answers
`(false, nil)` for both when the field can be read off that value and panics
when it cannot: in neither case `(true, nil)`. -/
theorem walletNameExists_misses_saved_wallet :
    HasPrefix "spending" "wallet-" = false ∧
    DB.One none
        ⟨[⟨1, "savings", AssetType.DCRWalletAsset⟩, ⟨2, "spending", AssetType.BTCWalletAsset⟩],
          []⟩
        "spending" ⟨Bucket.Wallet, true⟩ = some none ∧
    WalletNameExists true none
        ⟨[⟨1, "savings", AssetType.DCRWalletAsset⟩, ⟨2, "spending", AssetType.BTCWalletAsset⟩],
          []⟩
        "spending" = some (false, none) ∧
    WalletNameExists true none
        ⟨[⟨1, "savings", AssetType.DCRWalletAsset⟩, ⟨2, "spending", AssetType.BTCWalletAsset⟩],
          []⟩
        "savings" = some (false, none) ∧
    WalletNameExists false none
        ⟨[⟨1, "savings", AssetType.DCRWalletAsset⟩, ⟨2, "spending", AssetType.BTCWalletAsset⟩],
          []⟩
        "spending" = none := by
  decide

/-! ## Watch-only wallets -/

theorem allWatchOnly_iff (wallets : WalletMap) :
    allWatchOnly wallets = true ↔
      ∀ entry, entry ∈ wallets → entry.2.IsWatchingOnlyWallet = true := by
  induction wallets with
  | nil => simp [allWatchOnly]
  | cons head rest ih =>
    obtain ⟨id, w⟩ := head
    unfold allWatchOnly
    by_cases hw : w.IsWatchingOnlyWallet = true
    · simp [hw, ih]
    · simp [hw]

/-- C19: `AllWalletsAreWatchOnly` fails with `ErrInvalid`, and the value false,
if and only if the DCR live registry is empty; for every non-empty registry
it returns nil and the value true if and only if every wallet of that
registry is watch-only. -/
theorem allWalletsAreWatchOnly_spec (mw : MultiWallet) :
    ((AllWalletsAreWatchOnly mw).2 = some Error.ErrInvalid ↔ mw.Assets.DCR.Wallets = []) ∧
    (mw.Assets.DCR.Wallets = [] →
      AllWalletsAreWatchOnly mw = (false, some Error.ErrInvalid)) ∧
    (mw.Assets.DCR.Wallets ≠ [] →
      (AllWalletsAreWatchOnly mw).2 = none ∧
      ((AllWalletsAreWatchOnly mw).1 = true ↔
        ∀ entry, entry ∈ mw.Assets.DCR.Wallets → entry.2.IsWatchingOnlyWallet = true)) := by
  unfold AllWalletsAreWatchOnly
  by_cases hempty : mw.Assets.DCR.Wallets = []
  · simp [hempty]
  · have hlen : ¬ mw.Assets.DCR.Wallets.length = 0 := by
      intro h
      exact hempty (List.length_eq_zero.1 h)
    rw [if_neg hlen]
    rw [← allWatchOnly_iff]
    by_cases hall : allWatchOnly mw.Assets.DCR.Wallets = true
    · simp [hall, hempty]
    · simp [hall, hempty]

theorem allWalletsAreWatchOnly_spec_witness :
    (AllWalletsAreWatchOnly
        ⟨DB.empty, ⟨⟨[(1, { ID := 1, watchOnly := true }), (2, { ID := 2 })], []⟩,
          ⟨[], []⟩⟩⟩).2 = none ∧
    ((AllWalletsAreWatchOnly
        ⟨DB.empty, ⟨⟨[(1, { ID := 1, watchOnly := true }), (2, { ID := 2 })], []⟩,
          ⟨[], []⟩⟩⟩).1 = true ↔
      ∀ entry, entry ∈ ([(1, { ID := 1, watchOnly := true }), (2, { ID := 2 })] : WalletMap) →
        entry.2.IsWatchingOnlyWallet = true) :=
  (allWalletsAreWatchOnly_spec
    ⟨DB.empty, ⟨⟨[(1, { ID := 1, watchOnly := true }), (2, { ID := 2 })], []⟩,
      ⟨[], []⟩⟩⟩).2.2 (by decide)

/-! ## Loading the saved wallets -/

theorem mapSet_length {α : Type} (m : List (Int × α)) (k : Int) (v : α)
    (hfresh : k ∉ mapKeys m) : (mapSet m k v).length = m.length + 1 := by
  induction m with
  | nil => rfl
  | cons head rest ih =>
    obtain ⟨k2, v2⟩ := head
    simp only [mapKeys, List.map_cons, List.mem_cons, not_or] at hfresh
    unfold mapSet
    rw [if_neg (fun h => hfresh.1 h.symm), List.length_cons, ih hfresh.2, List.length_cons]

theorem mapSet_keys {α : Type} (m : List (Int × α)) (k : Int) (v : α) (k2 : Int)
    (h : k2 ∈ mapKeys (mapSet m k v)) : k2 = k ∨ k2 ∈ mapKeys m := by
  induction m with
  | nil =>
    simp only [mapSet, mapKeys, List.map_cons, List.map_nil, List.mem_singleton] at h
    exact Or.inl h
  | cons head rest ih =>
    obtain ⟨k3, v3⟩ := head
    unfold mapSet at h
    by_cases hk : k3 = k
    · rw [if_pos hk] at h
      simp only [mapKeys, List.map_cons, List.mem_cons] at h ⊢
      rcases h with h | h
      · exact Or.inl h
      · exact Or.inr (Or.inr h)
    · rw [if_neg hk] at h
      simp only [mapKeys, List.map_cons, List.mem_cons] at h ih ⊢
      rcases h with h | h
      · exact Or.inr (Or.inl h)
      · rcases ih h with h2 | h2
        · exact Or.inl h2
        · exact Or.inr (Or.inr h2)

theorem mapSet_mem_self {α : Type} (m : List (Int × α)) (k : Int) (v : α) :
    (k, v) ∈ mapSet m k v := by
  induction m with
  | nil => simp [mapSet]
  | cons head rest ih =>
    obtain ⟨k2, v2⟩ := head
    unfold mapSet
    by_cases hk : k2 = k
    · rw [if_pos hk]
      exact List.mem_cons_self _ _
    · rw [if_neg hk]
      exact List.mem_cons_of_mem _ ih

theorem mapSet_mem_of_mem {α : Type} (m : List (Int × α)) (k : Int) (v : α)
    (entry : Int × α) (hmem : entry ∈ m) (hne : entry.1 ≠ k) : entry ∈ mapSet m k v := by
  induction m with
  | nil => cases hmem
  | cons head rest ih =>
    obtain ⟨k2, v2⟩ := head
    unfold mapSet
    rcases List.mem_cons.1 hmem with h | h
    · subst h
      rw [if_neg hne]
      exact List.mem_cons_self _ _
    · by_cases hk : k2 = k
      · rw [if_pos hk]
        exact List.mem_cons_of_mem _ h
      · rw [if_neg hk]
        exact List.mem_cons_of_mem _ (ih h)

/-- Filing a wallet under a key that is in neither map of the chain adds one
entry. -/
theorem fileWallet_count (ex : Bool) (result : LoadResult) (chain : ChainAssets)
    (wallet : Wallet) (hlive : wallet.ID ∉ mapKeys chain.Wallets)
    (hbad : wallet.ID ∉ mapKeys chain.BadWallets) :
    (fileWallet ex result chain wallet).Wallets.length +
        (fileWallet ex result chain wallet).BadWallets.length =
      chain.Wallets.length + chain.BadWallets.length + 1 := by
  unfold fileWallet
  cases result with
  | loaded w =>
    cases ex
    · simp only [Bool.not_false, if_true]
      rw [mapSet_length _ _ _ hbad]
      omega
    · simp only [Bool.not_true, Bool.false_eq_true, if_false]
      rw [mapSet_length _ _ _ hlive]
      omega
  | failed w err =>
    simp only []
    rw [mapSet_length _ _ _ hbad]
    omega

/-- Filing a wallet adds no key other than the wallet's. -/
theorem fileWallet_keys (ex : Bool) (result : LoadResult) (chain : ChainAssets)
    (wallet : Wallet) (k : Int)
    (h : k ∈ mapKeys (fileWallet ex result chain wallet).Wallets ∨
      k ∈ mapKeys (fileWallet ex result chain wallet).BadWallets) :
    k = wallet.ID ∨ k ∈ mapKeys chain.Wallets ∨ k ∈ mapKeys chain.BadWallets := by
  unfold fileWallet at h
  cases result with
  | loaded w =>
    cases ex
    · simp only [Bool.not_false, if_true] at h
      rcases h with h | h
      · exact Or.inr (Or.inl h)
      · rcases mapSet_keys _ _ _ _ h with h2 | h2
        · exact Or.inl h2
        · exact Or.inr (Or.inr h2)
    · simp only [Bool.not_true, Bool.false_eq_true, if_false] at h
      rcases h with h | h
      · rcases mapSet_keys _ _ _ _ h with h2 | h2
        · exact Or.inl h2
        · exact Or.inr (Or.inl h2)
      · exact Or.inr (Or.inr h)
  | failed w err =>
    simp only [] at h
    rcases h with h | h
    · exact Or.inr (Or.inl h)
    · rcases mapSet_keys _ _ _ _ h with h2 | h2
      · exact Or.inl h2
      · exact Or.inr (Or.inr h2)

/-- A wallet that has just been filed is where it belongs. -/
theorem fileWallet_filed (ex : Bool) (result : LoadResult) (chain : ChainAssets)
    (wallet : Wallet) :
    FiledIn ex result (fileWallet ex result chain wallet) wallet.ID := by
  unfold FiledIn fileWallet
  cases result with
  | loaded w =>
    cases ex
    · simp only [Bool.not_false, if_true, Bool.false_eq_true, if_false]
      exact mapSet_mem_self _ _ _
    · simp only [Bool.not_true, Bool.false_eq_true, if_false, if_true]
      exact mapSet_mem_self _ _ _
  | failed w err => exact mapSet_mem_self _ _ _

/-- Filing a wallet leaves the wallets filed under other keys where they
are. -/
theorem fileWallet_preserves (ex ex2 : Bool) (result result2 : LoadResult)
    (chain : ChainAssets) (wallet : Wallet) (id : Int) (hne : id ≠ wallet.ID)
    (h : FiledIn ex2 result2 chain id) :
    FiledIn ex2 result2 (fileWallet ex result chain wallet) id := by
  have hlive : ∀ w : Asset, (id, w) ∈ chain.Wallets →
      (id, w) ∈ (fileWallet ex result chain wallet).Wallets := by
    intro w hmem
    unfold fileWallet
    cases result with
    | loaded w2 =>
      cases ex
      · exact hmem
      · exact mapSet_mem_of_mem _ _ _ _ hmem hne
    | failed w2 err => exact hmem
  have hbad : ∀ w : Option Asset, (id, w) ∈ chain.BadWallets →
      (id, w) ∈ (fileWallet ex result chain wallet).BadWallets := by
    intro w hmem
    unfold fileWallet
    cases result with
    | loaded w2 =>
      cases ex
      · exact mapSet_mem_of_mem _ _ _ _ hmem hne
      · exact hmem
    | failed w2 err => exact mapSet_mem_of_mem _ _ _ _ hmem hne
  unfold FiledIn at h ⊢
  cases result2 with
  | loaded w =>
    cases ex2
    · simp only [Bool.false_eq_true, if_false] at h ⊢
      exact hbad _ h
    · simp only [if_true] at h ⊢
      exact hlive _ h
  | failed w err => exact hbad _ h

theorem mem_keys_iff (assets : Assets) (k : Int) :
    k ∈ assets.keys ↔
      (k ∈ mapKeys assets.DCR.Wallets ∨ k ∈ mapKeys assets.DCR.BadWallets) ∨
        (k ∈ mapKeys assets.BTC.Wallets ∨ k ∈ mapKeys assets.BTC.BadWallets) := by
  simp only [Assets.keys, List.mem_append]

/-- One turn of the load loop on a record of type DCR or BTC whose ID is
not yet a key adds one entry to the registries. -/
theorem loadWallet_count (env : LoadEnv) (assets : Assets) (wallet : Wallet)
    (htype : wallet.assetType = AssetType.BTCWalletAsset ∨
      wallet.assetType = AssetType.DCRWalletAsset)
    (hfresh : wallet.ID ∉ assets.keys) :
    (loadWallet env assets wallet).count = assets.count + 1 := by
  rw [mem_keys_iff] at hfresh
  simp only [not_or] at hfresh
  unfold loadWallet Assets.count Assets.liveCount Assets.badCount
  rcases htype with h | h
  · rw [h]
    have := fileWallet_count (env.WalletExistsAt wallet) (env.btcLoadExisting wallet)
      assets.BTC wallet hfresh.2.1 hfresh.2.2
    simp only []
    omega
  · rw [h]
    have := fileWallet_count (env.WalletExistsAt wallet) (env.dcrLoadExisting wallet)
      assets.DCR wallet hfresh.1.1 hfresh.1.2
    simp only []
    omega

/-- One turn of the load loop adds no key other than the record's ID. -/
theorem loadWallet_keys (env : LoadEnv) (assets : Assets) (wallet : Wallet) (k : Int)
    (h : k ∈ (loadWallet env assets wallet).keys) : k = wallet.ID ∨ k ∈ assets.keys := by
  rw [mem_keys_iff] at h ⊢
  unfold loadWallet at h
  cases htype : wallet.assetType with
  | BTCWalletAsset =>
    rw [htype] at h
    simp only [] at h
    rcases h with h | h
    · exact Or.inr (Or.inl h)
    · rcases fileWallet_keys _ _ _ _ _ h with h2 | h2
      · exact Or.inl h2
      · exact Or.inr (Or.inr h2)
  | DCRWalletAsset =>
    rw [htype] at h
    simp only [] at h
    rcases h with h | h
    · rcases fileWallet_keys _ _ _ _ _ h with h2 | h2
      · exact Or.inl h2
      · exact Or.inr (Or.inl h2)
    · exact Or.inr (Or.inr h)
  | other tag =>
    rw [htype] at h
    exact Or.inr h

/-- One turn of the load loop files its record where it belongs. -/
theorem loadWallet_filed (env : LoadEnv) (assets : Assets) (wallet : Wallet) :
    IsFiled env (loadWallet env assets wallet) wallet := by
  unfold IsFiled loadWallet
  cases htype : wallet.assetType with
  | BTCWalletAsset => exact fileWallet_filed _ _ _ _
  | DCRWalletAsset => exact fileWallet_filed _ _ _ _
  | other tag => trivial

/-- One turn of the load loop leaves the records with other IDs where they
are. -/
theorem loadWallet_preserves (env : LoadEnv) (assets : Assets) (wallet other : Wallet)
    (hne : other.ID ≠ wallet.ID) (h : IsFiled env assets other) :
    IsFiled env (loadWallet env assets wallet) other := by
  unfold IsFiled at h ⊢
  unfold loadWallet
  cases hw : wallet.assetType with
  | BTCWalletAsset =>
    cases ho : other.assetType with
    | BTCWalletAsset =>
      rw [ho] at h
      exact fileWallet_preserves _ _ _ _ _ _ _ hne h
    | DCRWalletAsset =>
      rw [ho] at h
      exact h
    | other tag => trivial
  | DCRWalletAsset =>
    cases ho : other.assetType with
    | BTCWalletAsset =>
      rw [ho] at h
      exact h
    | DCRWalletAsset =>
      rw [ho] at h
      exact fileWallet_preserves _ _ _ _ _ _ _ hne h
    | other tag => trivial
  | other tag => exact h

/-- The load loop from any registries: the records, of type DCR or BTC and
with distinct IDs that are not yet keys, add one entry each. -/
theorem foldl_loadWallet_count (env : LoadEnv) (wallets : List Wallet) (assets : Assets)
    (hids : (wallets.map (fun wallet => wallet.ID)).Nodup)
    (htype : ∀ wallet, wallet ∈ wallets →
      wallet.assetType = AssetType.BTCWalletAsset ∨
        wallet.assetType = AssetType.DCRWalletAsset)
    (hfresh : ∀ wallet, wallet ∈ wallets → wallet.ID ∉ assets.keys) :
    (wallets.foldl (loadWallet env) assets).count = assets.count + wallets.length := by
  induction wallets generalizing assets with
  | nil => rfl
  | cons head rest ih =>
    simp only [List.map_cons, List.nodup_cons, List.mem_map, not_exists, not_and] at hids
    rw [List.foldl_cons, ih (loadWallet env assets head) hids.2
      (fun wallet hmem => htype wallet (List.mem_cons_of_mem _ hmem)),
      loadWallet_count env assets head (htype head (List.mem_cons_self _ _))
        (hfresh head (List.mem_cons_self _ _)), List.length_cons]
    · omega
    · intro wallet hmem hkey
      rcases loadWallet_keys env assets head _ hkey with h | h
      · exact hids.1 wallet hmem h
      · exact hfresh wallet (List.mem_cons_of_mem _ hmem) h

/-- The load loop leaves a filed record where it is when no later record has
its ID. -/
theorem foldl_loadWallet_preserves (env : LoadEnv) (wallets : List Wallet) (assets : Assets)
    (other : Wallet) (hne : ∀ wallet, wallet ∈ wallets → other.ID ≠ wallet.ID)
    (h : IsFiled env assets other) :
    IsFiled env (wallets.foldl (loadWallet env) assets) other := by
  induction wallets generalizing assets with
  | nil => exact h
  | cons head rest ih =>
    rw [List.foldl_cons]
    exact ih (loadWallet env assets head)
      (fun wallet hmem => hne wallet (List.mem_cons_of_mem _ hmem))
      (loadWallet_preserves env assets head other (hne head (List.mem_cons_self _ _)) h)

/-- The load loop files every record with distinct IDs where it belongs. -/
theorem foldl_loadWallet_filed (env : LoadEnv) (wallets : List Wallet) (assets : Assets)
    (hids : (wallets.map (fun wallet => wallet.ID)).Nodup)
    (wallet : Wallet) (hmem : wallet ∈ wallets) :
    IsFiled env (wallets.foldl (loadWallet env) assets) wallet := by
  induction wallets generalizing assets with
  | nil => cases hmem
  | cons head rest ih =>
    simp only [List.map_cons, List.nodup_cons, List.mem_map, not_exists, not_and] at hids
    rw [List.foldl_cons]
    rcases List.mem_cons.1 hmem with h | h
    · subst h
      exact foldl_loadWallet_preserves env rest _ wallet
        (fun later hlater heq => hids.1 later hlater heq.symm)
        (loadWallet_filed env assets wallet)
    · exact ih (loadWallet env assets head) hids.2 h

/-- C20, as stated, fails in two places: the record 1, whose constructor
succeeds and whose data directory is missing, ends in the bad registry and
not in the live one; the record 2 of another chain type ends in no registry,
so that two records give one entry. -/
theorem loadWallets_not_every_record :
    loadWallets
        ⟨fun _ => LoadResult.loaded { ID := 1 }, fun _ => LoadResult.loaded { ID := 1 },
          fun _ => false⟩
        [⟨1, "a", AssetType.DCRWalletAsset⟩, ⟨2, "b", AssetType.other "ETH"⟩] =
      ⟨⟨[], [(1, some { ID := 1 })]⟩, ⟨[], []⟩⟩ := by
  decide

/-- C20, amended: for every list of wallet records of type DCR or BTC with the
distinct IDs that the store gives them, the load loop files every record in
the registries of its chain, in the live registry when its constructor
succeeded and its data directory exists and in the bad registry when the
constructor failed or the directory is missing, and the number of live plus
bad wallets is the number of records. -/
theorem loadWallets_files_every_record (env : LoadEnv) (wallets : List Wallet)
    (hids : (wallets.map (fun wallet => wallet.ID)).Nodup)
    (htype : ∀ wallet, wallet ∈ wallets →
      wallet.assetType = AssetType.BTCWalletAsset ∨
        wallet.assetType = AssetType.DCRWalletAsset) :
    (∀ wallet, wallet ∈ wallets → IsFiled env (loadWallets env wallets) wallet) ∧
    (loadWallets env wallets).liveCount + (loadWallets env wallets).badCount =
      wallets.length := by
  unfold loadWallets
  refine ⟨fun wallet hmem => foldl_loadWallet_filed env wallets _ hids wallet hmem, ?_⟩
  have h := foldl_loadWallet_count env wallets Assets.empty hids htype
    (fun wallet _ hkey => by simp [Assets.keys, Assets.empty, mapKeys] at hkey)
  unfold Assets.count at h
  rw [h]
  simp [Assets.empty, Assets.liveCount, Assets.badCount]

theorem loadWallets_files_every_record_witness :
    (∀ wallet, wallet ∈ ([⟨1, "a", AssetType.DCRWalletAsset⟩,
        ⟨2, "b", AssetType.BTCWalletAsset⟩, ⟨3, "c", AssetType.DCRWalletAsset⟩] : List Wallet) →
      IsFiled
        ⟨fun _ => LoadResult.failed none (Error.wallet 4),
          fun wallet => LoadResult.loaded { ID := wallet.ID },
          fun wallet => decide (wallet.ID = 1)⟩
        (loadWallets
          ⟨fun _ => LoadResult.failed none (Error.wallet 4),
            fun wallet => LoadResult.loaded { ID := wallet.ID },
            fun wallet => decide (wallet.ID = 1)⟩
          [⟨1, "a", AssetType.DCRWalletAsset⟩, ⟨2, "b", AssetType.BTCWalletAsset⟩,
            ⟨3, "c", AssetType.DCRWalletAsset⟩]) wallet) ∧
    (loadWallets
      ⟨fun _ => LoadResult.failed none (Error.wallet 4),
        fun wallet => LoadResult.loaded { ID := wallet.ID },
        fun wallet => decide (wallet.ID = 1)⟩
      [⟨1, "a", AssetType.DCRWalletAsset⟩, ⟨2, "b", AssetType.BTCWalletAsset⟩,
        ⟨3, "c", AssetType.DCRWalletAsset⟩]).liveCount +
    (loadWallets
      ⟨fun _ => LoadResult.failed none (Error.wallet 4),
        fun wallet => LoadResult.loaded { ID := wallet.ID },
        fun wallet => decide (wallet.ID = 1)⟩
      [⟨1, "a", AssetType.DCRWalletAsset⟩, ⟨2, "b", AssetType.BTCWalletAsset⟩,
        ⟨3, "c", AssetType.DCRWalletAsset⟩]).badCount =
      ([⟨1, "a", AssetType.DCRWalletAsset⟩, ⟨2, "b", AssetType.BTCWalletAsset⟩,
        ⟨3, "c", AssetType.DCRWalletAsset⟩] : List Wallet).length :=
  loadWallets_files_every_record
    ⟨fun _ => LoadResult.failed none (Error.wallet 4),
      fun wallet => LoadResult.loaded { ID := wallet.ID },
      fun wallet => decide (wallet.ID = 1)⟩
    [⟨1, "a", AssetType.DCRWalletAsset⟩, ⟨2, "b", AssetType.BTCWalletAsset⟩,
      ⟨3, "c", AssetType.DCRWalletAsset⟩] (by decide) (by decide)

theorem perm_insert_middle (xs ys : List Int) (k : Int) :
    (xs ++ [k] ++ ys).Perm (k :: (xs ++ ys)) := by
  rw [List.append_assoc, List.singleton_append]
  exact List.perm_middle

theorem mapSet_keys_fresh {α : Type} (m : List (Int × α)) (k : Int) (v : α)
    (hfresh : k ∉ mapKeys m) : mapKeys (mapSet m k v) = mapKeys m ++ [k] := by
  induction m with
  | nil => rfl
  | cons head rest ih =>
    obtain ⟨k2, v2⟩ := head
    simp only [mapKeys, List.map_cons, List.mem_cons, not_or] at hfresh
    unfold mapSet
    rw [if_neg (fun h => hfresh.1 h.symm)]
    simp only [mapKeys, List.map_cons, List.cons_append, List.cons.injEq, true_and]
    exact ih hfresh.2

/-- One turn of the load loop on a record whose ID is not yet a key either
leaves the keys as they are or adds the record's ID to them. -/
theorem loadWallet_keys_perm (env : LoadEnv) (assets : Assets) (wallet : Wallet)
    (hfresh : wallet.ID ∉ assets.keys) :
    (loadWallet env assets wallet).keys = assets.keys ∨
      (loadWallet env assets wallet).keys.Perm (wallet.ID :: assets.keys) := by
  rw [mem_keys_iff] at hfresh
  simp only [not_or] at hfresh
  obtain ⟨⟨h1, h2⟩, h3, h4⟩ := hfresh
  unfold loadWallet
  cases htype : wallet.assetType with
  | other tag => exact Or.inl rfl
  | BTCWalletAsset =>
    right
    simp only [Assets.keys, fileWallet]
    cases env.btcLoadExisting wallet with
    | failed w err =>
      simp only [mapSet_keys_fresh _ _ _ h4]
      have h := perm_insert_middle (mapKeys assets.DCR.Wallets ++
        mapKeys assets.DCR.BadWallets ++ (mapKeys assets.BTC.Wallets ++
          mapKeys assets.BTC.BadWallets)) [] wallet.ID
      simpa [List.append_assoc] using h
    | loaded w =>
      cases env.WalletExistsAt wallet
      · simp only [Bool.not_false, if_true, mapSet_keys_fresh _ _ _ h4]
        have h := perm_insert_middle (mapKeys assets.DCR.Wallets ++
          mapKeys assets.DCR.BadWallets ++ (mapKeys assets.BTC.Wallets ++
            mapKeys assets.BTC.BadWallets)) [] wallet.ID
        simpa [List.append_assoc] using h
      · simp only [Bool.not_true, Bool.false_eq_true, if_false, mapSet_keys_fresh _ _ _ h3]
        have h := perm_insert_middle (mapKeys assets.DCR.Wallets ++
          mapKeys assets.DCR.BadWallets ++ mapKeys assets.BTC.Wallets)
          (mapKeys assets.BTC.BadWallets) wallet.ID
        simpa [List.append_assoc] using h
  | DCRWalletAsset =>
    right
    simp only [Assets.keys, fileWallet]
    cases env.dcrLoadExisting wallet with
    | failed w err =>
      simp only [mapSet_keys_fresh _ _ _ h2]
      have h := perm_insert_middle (mapKeys assets.DCR.Wallets ++
        mapKeys assets.DCR.BadWallets) (mapKeys assets.BTC.Wallets ++
          mapKeys assets.BTC.BadWallets) wallet.ID
      simpa [List.append_assoc] using h
    | loaded w =>
      cases env.WalletExistsAt wallet
      · simp only [Bool.not_false, if_true, mapSet_keys_fresh _ _ _ h2]
        have h := perm_insert_middle (mapKeys assets.DCR.Wallets ++
          mapKeys assets.DCR.BadWallets) (mapKeys assets.BTC.Wallets ++
            mapKeys assets.BTC.BadWallets) wallet.ID
        simpa [List.append_assoc] using h
      · simp only [Bool.not_true, Bool.false_eq_true, if_false, mapSet_keys_fresh _ _ _ h1]
        simp only [List.append_assoc, List.singleton_append]
        exact List.perm_middle

/-- One turn of the load loop on a record whose ID is not yet a key keeps
the keys of the four registries distinct. -/
theorem loadWallet_nodup (env : LoadEnv) (assets : Assets) (wallet : Wallet)
    (hnodup : assets.keys.Nodup) (hfresh : wallet.ID ∉ assets.keys) :
    (loadWallet env assets wallet).keys.Nodup := by
  rcases loadWallet_keys_perm env assets wallet hfresh with h | h
  · rw [h]
    exact hnodup
  · exact h.nodup_iff.2 (List.nodup_cons.2 ⟨hfresh, hnodup⟩)

/-- The load loop over records with distinct IDs that are not yet keys keeps
the keys of the four registries distinct. -/
theorem foldl_loadWallet_nodup (env : LoadEnv) (wallets : List Wallet) (assets : Assets)
    (hids : (wallets.map (fun wallet => wallet.ID)).Nodup)
    (hnodup : assets.keys.Nodup)
    (hfresh : ∀ wallet, wallet ∈ wallets → wallet.ID ∉ assets.keys) :
    (wallets.foldl (loadWallet env) assets).keys.Nodup := by
  induction wallets generalizing assets with
  | nil => exact hnodup
  | cons head rest ih =>
    simp only [List.map_cons, List.nodup_cons, List.mem_map, not_exists, not_and] at hids
    rw [List.foldl_cons]
    apply ih (loadWallet env assets head) hids.2
      (loadWallet_nodup env assets head hnodup (hfresh head (List.mem_cons_self _ _)))
    intro wallet hmem hkey
    rcases loadWallet_keys env assets head _ hkey with h | h
    · exact hids.1 wallet hmem h
    · exact hfresh wallet (List.mem_cons_of_mem _ hmem) h

theorem loadWallets_keys_nodup (env : LoadEnv) (wallets : List Wallet)
    (hids : (wallets.map (fun wallet => wallet.ID)).Nodup) :
    (loadWallets env wallets).keys.Nodup := by
  unfold loadWallets
  apply foldl_loadWallet_nodup env wallets Assets.empty hids
  · simp [Assets.keys, Assets.empty, mapKeys]
  · intro wallet _ hkey
    simp [Assets.keys, Assets.empty, mapKeys] at hkey

theorem four_nodup (ks1 ks2 ks3 ks4 : List Int)
    (h : (ks1 ++ ks2 ++ (ks3 ++ ks4)).Nodup) :
    (∀ id, ¬ ((id ∈ ks1 ∨ id ∈ ks3) ∧ (id ∈ ks2 ∨ id ∈ ks4))) ∧ (ks1 ++ ks3).Nodup := by
  simp only [List.nodup_append, List.mem_append, List.Disjoint] at h ⊢
  obtain ⟨⟨h1, _, h12⟩, ⟨h3, _, h34⟩, hcross⟩ := h
  refine ⟨?_, h1, h3, ?_⟩
  · rintro id ⟨ha | ha, hb | hb⟩
    · exact h12 ha hb
    · exact hcross (Or.inl ha) (Or.inr hb)
    · exact hcross (Or.inr hb) (Or.inl ha)
    · exact h34 ha hb
  · intro id ha hc
    exact hcross (Or.inl ha) (Or.inl hc)

/-- C21: after the load loop of `NewMultiWallet` over any list of records with
pairwise distinct IDs, no ID is a key of a live map and of a bad map, of
whatever chains, and the keys of the two live maps together are pairwise
distinct: each ID keys at most one live wallet. -/
theorem loadWallets_registries_disjoint (env : LoadEnv) (wallets : List Wallet)
    (hids : (wallets.map (fun wallet => wallet.ID)).Nodup) :
    (∀ id, ¬ ((id ∈ mapKeys (loadWallets env wallets).DCR.Wallets ∨
          id ∈ mapKeys (loadWallets env wallets).BTC.Wallets) ∧
        (id ∈ mapKeys (loadWallets env wallets).DCR.BadWallets ∨
          id ∈ mapKeys (loadWallets env wallets).BTC.BadWallets))) ∧
    (mapKeys (loadWallets env wallets).DCR.Wallets ++
      mapKeys (loadWallets env wallets).BTC.Wallets).Nodup :=
  four_nodup _ _ _ _ (loadWallets_keys_nodup env wallets hids)

theorem loadWallets_registries_disjoint_witness :
    (mapKeys (loadWallets
        ⟨fun wallet => LoadResult.loaded { ID := wallet.ID },
          fun _ => LoadResult.failed none (Error.wallet 4), fun _ => true⟩
        [⟨1, "a", AssetType.DCRWalletAsset⟩, ⟨2, "b", AssetType.BTCWalletAsset⟩,
          ⟨3, "c", AssetType.DCRWalletAsset⟩]).DCR.Wallets ++
      mapKeys (loadWallets
        ⟨fun wallet => LoadResult.loaded { ID := wallet.ID },
          fun _ => LoadResult.failed none (Error.wallet 4), fun _ => true⟩
        [⟨1, "a", AssetType.DCRWalletAsset⟩, ⟨2, "b", AssetType.BTCWalletAsset⟩,
          ⟨3, "c", AssetType.DCRWalletAsset⟩]).BTC.Wallets).Nodup :=
  (loadWallets_registries_disjoint
    ⟨fun wallet => LoadResult.loaded { ID := wallet.ID },
      fun _ => LoadResult.failed none (Error.wallet 4), fun _ => true⟩
    [⟨1, "a", AssetType.DCRWalletAsset⟩, ⟨2, "b", AssetType.BTCWalletAsset⟩,
      ⟨3, "c", AssetType.DCRWalletAsset⟩] (by decide)).2

theorem mem_mapKeys_of_mem {α : Type} (m : List (Int × α)) (k : Int) (v : α)
    (h : (k, v) ∈ m) : k ∈ mapKeys m :=
  List.mem_map_of_mem Prod.fst h

/-- C22: for every record whose backend construction succeeds and whose data
directory does not exist, the turn of the load loop for the record sets
`err` to the "missing wallet database file" error, files the wallet in the
bad registry of its chain and leaves the live registries, and with them
`LoadedWalletsCount`, as they were; after the loop over records with
distinct IDs the wallet is in that bad registry and its ID keys no live
wallet. -/
theorem loadWallet_missing_dataDir (env : LoadEnv) (db : DB) (assets : Assets)
    (wallet : Wallet) (w : Asset)
    (hload : env.LoadExisting wallet = some (LoadResult.loaded w))
    (hdir : env.WalletExistsAt wallet = false) :
    loadErr (env.WalletExistsAt wallet) (LoadResult.loaded w) =
      some Error.missingWalletDatabaseFile ∧
    (wallet.ID, some w) ∈ (loadWallet env assets wallet).DCR.BadWallets ++
      (loadWallet env assets wallet).BTC.BadWallets ∧
    (loadWallet env assets wallet).DCR.Wallets = assets.DCR.Wallets ∧
    (loadWallet env assets wallet).BTC.Wallets = assets.BTC.Wallets ∧
    LoadedWalletsCount ⟨db, loadWallet env assets wallet⟩ = LoadedWalletsCount ⟨db, assets⟩ ∧
    (∀ wallets : List Wallet, (wallets.map (fun other => other.ID)).Nodup →
      wallet ∈ wallets →
        (wallet.ID, some w) ∈ (loadWallets env wallets).DCR.BadWallets ++
          (loadWallets env wallets).BTC.BadWallets ∧
        wallet.ID ∉ mapKeys (loadWallets env wallets).DCR.Wallets ∧
        wallet.ID ∉ mapKeys (loadWallets env wallets).BTC.Wallets) := by
  have hfiled : ∀ registries : Assets, IsFiled env registries wallet →
      (wallet.ID, some w) ∈ registries.DCR.BadWallets ++ registries.BTC.BadWallets := by
    intro registries h
    unfold IsFiled at h
    unfold LoadEnv.LoadExisting at hload
    cases htype : wallet.assetType with
    | BTCWalletAsset =>
      rw [htype] at h hload
      simp only [Option.some.injEq] at hload
      rw [hload, hdir] at h
      exact List.mem_append_right _ h
    | DCRWalletAsset =>
      rw [htype] at h hload
      simp only [Option.some.injEq] at hload
      rw [hload, hdir] at h
      exact List.mem_append_left _ h
    | other tag =>
      rw [htype] at hload
      cases hload
  have hlive : (loadWallet env assets wallet).DCR.Wallets = assets.DCR.Wallets ∧
      (loadWallet env assets wallet).BTC.Wallets = assets.BTC.Wallets := by
    unfold loadWallet
    unfold LoadEnv.LoadExisting at hload
    cases htype : wallet.assetType with
    | BTCWalletAsset =>
      rw [htype] at hload
      simp only [Option.some.injEq] at hload
      simp [fileWallet, hload, hdir]
    | DCRWalletAsset =>
      rw [htype] at hload
      simp only [Option.some.injEq] at hload
      simp [fileWallet, hload, hdir]
    | other tag => exact ⟨rfl, rfl⟩
  refine ⟨by simp [loadErr, hdir], hfiled _ (loadWallet_filed env assets wallet),
    hlive.1, hlive.2, ?_, ?_⟩
  · unfold LoadedWalletsCount
    simp only [hlive.1, hlive.2]
  · intro wallets hids hmem
    have hloop : IsFiled env (loadWallets env wallets) wallet :=
      foldl_loadWallet_filed env wallets Assets.empty hids wallet hmem
    have hbad := hfiled _ hloop
    have hdisj := (four_nodup _ _ _ _ (loadWallets_keys_nodup env wallets hids)).1 wallet.ID
    have hkey : wallet.ID ∈ mapKeys (loadWallets env wallets).DCR.BadWallets ∨
        wallet.ID ∈ mapKeys (loadWallets env wallets).BTC.BadWallets := by
      rcases List.mem_append.1 hbad with h | h
      · exact Or.inl (mem_mapKeys_of_mem _ _ _ h)
      · exact Or.inr (mem_mapKeys_of_mem _ _ _ h)
    exact ⟨hbad, fun h => hdisj ⟨Or.inl h, hkey⟩, fun h => hdisj ⟨Or.inr h, hkey⟩⟩

theorem loadWallet_missing_dataDir_witness :
    (loadWallet
        ⟨fun wallet => LoadResult.loaded { ID := wallet.ID },
          fun wallet => LoadResult.loaded { ID := wallet.ID }, fun _ => false⟩
        Assets.empty ⟨1, "a", AssetType.DCRWalletAsset⟩).DCR.Wallets =
      Assets.empty.DCR.Wallets ∧
    LoadedWalletsCount ⟨DB.empty, loadWallet
        ⟨fun wallet => LoadResult.loaded { ID := wallet.ID },
          fun wallet => LoadResult.loaded { ID := wallet.ID }, fun _ => false⟩
        Assets.empty ⟨1, "a", AssetType.DCRWalletAsset⟩⟩ =
      LoadedWalletsCount ⟨DB.empty, Assets.empty⟩ :=
  have h := loadWallet_missing_dataDir
    ⟨fun wallet => LoadResult.loaded { ID := wallet.ID },
      fun wallet => LoadResult.loaded { ID := wallet.ID }, fun _ => false⟩
    DB.empty Assets.empty ⟨1, "a", AssetType.DCRWalletAsset⟩ { ID := 1 } rfl rfl
  ⟨h.2.2.1, h.2.2.2.2.1⟩

/-- C23, as stated, fails on the failure reason: the DCR wallet 2 fails to load
with the error 7 in one run and with the error 8 in another, and both runs
leave the same registries, in which `BadWallets` holds for the key 2 the nil
pointer that the constructor returned and nothing else. -/
theorem badWallets_keep_no_reason :
    loadErr true (LoadResult.failed none (Error.wallet 7)) ≠
      loadErr true (LoadResult.failed none (Error.wallet 8)) ∧
    loadWallets
        ⟨fun wallet => LoadResult.loaded { ID := wallet.ID },
          fun wallet =>
            if wallet.ID = 1 then LoadResult.loaded { ID := 1 }
            else LoadResult.failed none (Error.wallet 7),
          fun _ => true⟩
        [⟨1, "W1", AssetType.DCRWalletAsset⟩, ⟨2, "W2", AssetType.DCRWalletAsset⟩] =
      loadWallets
        ⟨fun wallet => LoadResult.loaded { ID := wallet.ID },
          fun wallet =>
            if wallet.ID = 1 then LoadResult.loaded { ID := 1 }
            else LoadResult.failed none (Error.wallet 8),
          fun _ => true⟩
        [⟨1, "W1", AssetType.DCRWalletAsset⟩, ⟨2, "W2", AssetType.DCRWalletAsset⟩] ∧
    BadWallets ⟨DB.empty, loadWallets
        ⟨fun wallet => LoadResult.loaded { ID := wallet.ID },
          fun wallet =>
            if wallet.ID = 1 then LoadResult.loaded { ID := 1 }
            else LoadResult.failed none (Error.wallet 7),
          fun _ => true⟩
        [⟨1, "W1", AssetType.DCRWalletAsset⟩, ⟨2, "W2", AssetType.DCRWalletAsset⟩]⟩ =
      [(2, none)] := by
  decide

/-- C23, amended: when a wallet W1 that loads (its constructor succeeds and its
data directory exists) and a DCR wallet W2 whose constructor fails are
persisted, in either order, the load loop runs to its end,
`LoadedWalletsCount` is 1 and the map returned by `BadWallets` has exactly
one entry: the ID of W2 with the pointer that the constructor returned next
to its error.  No entry holds a failure reason: the registries are the same
whatever error the constructor of W2 returned. -/
theorem loadWallets_one_valid_one_failed (env : LoadEnv) (db : DB) (w1 w2 : Wallet)
    (a1 : Asset) (bad : Option Asset) (e : Error)
    (h1 : env.LoadExisting w1 = some (LoadResult.loaded a1))
    (hdir : env.WalletExistsAt w1 = true)
    (htype : w2.assetType = AssetType.DCRWalletAsset)
    (h2 : env.dcrLoadExisting w2 = LoadResult.failed bad e) :
    LoadedWalletsCount ⟨db, loadWallets env [w1, w2]⟩ = 1 ∧
    BadWallets ⟨db, loadWallets env [w1, w2]⟩ = [(w2.ID, bad)] ∧
    LoadedWalletsCount ⟨db, loadWallets env [w2, w1]⟩ = 1 ∧
    BadWallets ⟨db, loadWallets env [w2, w1]⟩ = [(w2.ID, bad)] ∧
    (∀ (env2 : LoadEnv) (e2 : Error),
      env2.LoadExisting w1 = some (LoadResult.loaded a1) →
      env2.WalletExistsAt w1 = true →
      env2.dcrLoadExisting w2 = LoadResult.failed bad e2 →
        loadWallets env2 [w1, w2] = loadWallets env [w1, w2] ∧
        loadWallets env2 [w2, w1] = loadWallets env [w2, w1]) := by
  unfold LoadEnv.LoadExisting at h1
  cases h1type : w1.assetType with
  | other tag =>
    rw [h1type] at h1
    cases h1
  | BTCWalletAsset =>
    rw [h1type] at h1
    simp only [Option.some.injEq] at h1
    refine ⟨?_, ?_, ?_, ?_, ?_⟩
    · simp [loadWallets, loadWallet, fileWallet, Assets.empty, mapSet, LoadedWalletsCount,
        toInt32, htype, h1type, h1, h2, hdir]
    · simp [loadWallets, loadWallet, fileWallet, Assets.empty, mapSet,
        BadWallets, htype, h1type, h1, h2, hdir]
    · simp [loadWallets, loadWallet, fileWallet, Assets.empty, mapSet, LoadedWalletsCount,
        toInt32, htype, h1type, h1, h2, hdir]
    · simp [loadWallets, loadWallet, fileWallet, Assets.empty, mapSet,
        BadWallets, htype, h1type, h1, h2, hdir]
    · intro env2 e2 g1 gdir g2
      unfold LoadEnv.LoadExisting at g1
      rw [h1type] at g1
      simp only [Option.some.injEq] at g1
      simp [loadWallets, loadWallet, fileWallet, Assets.empty, mapSet,
        htype, h1type, h1, h2, hdir, g1, g2, gdir]
  | DCRWalletAsset =>
    rw [h1type] at h1
    simp only [Option.some.injEq] at h1
    refine ⟨?_, ?_, ?_, ?_, ?_⟩
    · simp [loadWallets, loadWallet, fileWallet, Assets.empty, mapSet, LoadedWalletsCount,
        toInt32, htype, h1type, h1, h2, hdir]
    · simp [loadWallets, loadWallet, fileWallet, Assets.empty, mapSet,
        BadWallets, htype, h1type, h1, h2, hdir]
    · simp [loadWallets, loadWallet, fileWallet, Assets.empty, mapSet, LoadedWalletsCount,
        toInt32, htype, h1type, h1, h2, hdir]
    · simp [loadWallets, loadWallet, fileWallet, Assets.empty, mapSet,
        BadWallets, htype, h1type, h1, h2, hdir]
    · intro env2 e2 g1 gdir g2
      unfold LoadEnv.LoadExisting at g1
      rw [h1type] at g1
      simp only [Option.some.injEq] at g1
      simp [loadWallets, loadWallet, fileWallet, Assets.empty, mapSet,
        htype, h1type, h1, h2, hdir, g1, g2, gdir]

theorem loadWallets_one_valid_one_failed_witness :
    LoadedWalletsCount ⟨DB.empty, loadWallets
        ⟨fun wallet => LoadResult.loaded { ID := wallet.ID },
          fun wallet =>
            if wallet.ID = 1 then LoadResult.loaded { ID := 1 }
            else LoadResult.failed none (Error.wallet 7),
          fun _ => true⟩
        [⟨1, "W1", AssetType.DCRWalletAsset⟩, ⟨2, "W2", AssetType.DCRWalletAsset⟩]⟩ = 1 :=
  (loadWallets_one_valid_one_failed
    ⟨fun wallet => LoadResult.loaded { ID := wallet.ID },
      fun wallet =>
        if wallet.ID = 1 then LoadResult.loaded { ID := 1 }
        else LoadResult.failed none (Error.wallet 7),
      fun _ => true⟩
    DB.empty ⟨1, "W1", AssetType.DCRWalletAsset⟩ ⟨2, "W2", AssetType.DCRWalletAsset⟩
    { ID := 1 } none (Error.wallet 7) rfl rfl rfl rfl).1

/-! ## Shutdown -/

/-- C25 at a registry with the DCR wallet 1 and the BTC wallet 2, which
`OpenWallets` would both open: `Shutdown` sends the signal, cancels rescan
and sync on wallet 1 and shuts it down, closes the store and closes the log
rotator, also when the store answers an error; the BTC wallet 2 gets no
call. -/
theorem shutdown_skips_btc :
    Shutdown ⟨true, none, true⟩
        ⟨DB.empty, ⟨⟨[(1, { ID := 1 })], []⟩, ⟨[(2, { ID := 2, syncing := true })], []⟩⟩⟩ =
      [ShutdownEvent.shuttingDown, ShutdownEvent.CancelRescan 1, ShutdownEvent.CancelSync 1,
        ShutdownEvent.walletShutdown 1, ShutdownEvent.dbClose,
        ShutdownEvent.logRotatorClose] ∧
    Shutdown ⟨true, some 5, true⟩
        ⟨DB.empty, ⟨⟨[(1, { ID := 1 })], []⟩, ⟨[(2, { ID := 2, syncing := true })], []⟩⟩⟩ =
      [ShutdownEvent.shuttingDown, ShutdownEvent.CancelRescan 1, ShutdownEvent.CancelSync 1,
        ShutdownEvent.walletShutdown 1, ShutdownEvent.dbClose,
        ShutdownEvent.logDbCloseError 5, ShutdownEvent.logRotatorClose] := by
  decide

end Libwallet

/-! ## The application version -/

namespace AppVersion

theorem normalize_foldl (alphabet : String) (cs acc : List Char) :
    cs.foldl (fun result r => if ContainsRune alphabet r then result ++ [r] else result) acc =
      acc ++ cs.filter (fun r => ContainsRune alphabet r) := by
  induction cs generalizing acc with
  | nil => simp
  | cons c rest ih =>
    rw [List.foldl_cons, ih, List.filter_cons]
    by_cases h : ContainsRune alphabet c = true
    · simp [h]
    · simp [h]

theorem normalizeSemString_data (str alphabet : String) :
    (normalizeSemString str alphabet).data =
      str.data.filter (fun r => ContainsRune alphabet r) := by
  unfold normalizeSemString
  rw [normalize_foldl]
  rfl

/-- C26 at the build string `"."` and at the pre-release string `"01"`: every
character is in its alphabet, `Version` appends the part as it is, and
`"2.1.0+."` (an empty build identifier) and `"2.1.0-01+beta1"` (a numeric
identifier with a leading zero) are not versions of semantic versioning
2.0.0; with the default values the result is the well-formed
`"2.1.0+beta1"`. -/
theorem version_not_semver :
    Version "" "." = "2.1.0+." ∧ isSemVer (Version "" ".") = false ∧
    Version "01" "beta1" = "2.1.0-01+beta1" ∧ isSemVer (Version "01" "beta1") = false ∧
    Version "" "beta1" = "2.1.0+beta1" ∧ isSemVer (Version "" "beta1") = true := by
  decide

/-- C27 at the pre-release string `"rc 1"` and at the build string `"b_7"`:
each contains a character outside its alphabet, and `Version` appends the
part all the same, with that character stripped. -/
theorem version_appends_stripped_part :
    ContainsRune semanticAlphabet ' ' = false ∧
    Version "rc 1" "" = "2.1.0-rc1" ∧
    ContainsRune semanticBuildAlphabet '_' = false ∧
    Version "" "b_7" = "2.1.0+b7" := by
  decide

/-- C28: for every string `s` and every alphabet `a`, `normalizeSemString s a`
is `s` with the characters that do not occur in `a` removed and the others
in their order; every character of the result is in `a`, the result is `s`
when all characters of `s` are in `a`, and applying the function again
changes nothing. -/
theorem normalizeSemString_spec (s a : String) :
    (normalizeSemString s a).data = s.data.filter (fun r => decide (r ∈ a.data)) ∧
    (∀ r, r ∈ (normalizeSemString s a).data → r ∈ a.data) ∧
    ((∀ r, r ∈ s.data → r ∈ a.data) → normalizeSemString s a = s) ∧
    normalizeSemString (normalizeSemString s a) a = normalizeSemString s a := by
  have hdata := normalizeSemString_data s a
  refine ⟨hdata, ?_, ?_, ?_⟩
  · intro r hr
    rw [hdata] at hr
    have h := (List.mem_filter.1 hr).2
    simpa [ContainsRune] using h
  · intro hall
    apply String.ext
    rw [hdata]
    apply List.filter_eq_self.2
    intro r hr
    simpa [ContainsRune] using hall r hr
  · apply String.ext
    rw [normalizeSemString_data, hdata, List.filter_filter]
    simp

theorem normalizeSemString_spec_witness :
    normalizeSemString "beta1" semanticBuildAlphabet = "beta1" :=
  (normalizeSemString_spec "beta1" semanticBuildAlphabet).2.2.1 (by decide)

end AppVersion

/-! ## The ETH backend -/

namespace Eth

/-- C24, as stated, fails for the operations whose result has no error: the
caller of `IsWaiting`, `IsWatchingOnlyWallet` and `IsConnectedToNetwork`
receives the plain value false, the caller of `ToAmount` and `GetBestBlock`
nil, the caller of `GetBestBlockHeight` and `GetBestBlockTimeStamp` the
value -1. -/
theorem stubs_answer_plain_values :
    (IsWaiting ⟨1⟩).value = false ∧ (IsWatchingOnlyWallet ⟨1⟩).value = false ∧
    (IsConnectedToNetwork ⟨1⟩).value = false ∧ (ToAmount ⟨1⟩ 5).value = none ∧
    (GetBestBlock ⟨1⟩).value = none ∧ (GetBestBlockHeight ⟨1⟩).value = -1 ∧
    (GetBestBlockTimeStamp ⟨1⟩).value = -1 := by
  decide

/-- C24, amended: for every input, `CreateWatchOnlyWallet`, `RestoreWallet`,
`LoadExisting`, `ChangePrivatePassphraseForWallet`, `SignMessage` and
`VerifyMessage` return the "method not implemented" error that names the
operation, next to a nil or false value; `IsWaiting`,
`IsWatchingOnlyWallet`, `IsConnectedToNetwork`, `ToAmount`, `GetBestBlock`,
`GetBestBlockHeight` and `GetBestBlockTimeStamp`, whose result has no error,
log that error and return false, nil or -1. -/
theorem stubs_not_implemented {A P W : Type} (asset : Asset) (s1 s2 s3 : String) (n : Int)
    (pass : A) (params : P) (w : W) :
    CreateWatchOnlyWallet s1 s2 params =
      (none, some (Error.ErrETHMethodNotImplemented "CreateWatchOnlyWallet")) ∧
    RestoreWallet s1 pass params =
      (none, some (Error.ErrETHMethodNotImplemented "RestoreWallet")) ∧
    LoadExisting w params = (none, some (Error.ErrETHMethodNotImplemented "LoadExisting")) ∧
    ChangePrivatePassphraseForWallet asset s1 s2 n =
      some (Error.ErrETHMethodNotImplemented "ChangePrivatePassphraseForWallet") ∧
    SignMessage asset s1 s2 s3 =
      (none, some (Error.ErrETHMethodNotImplemented "SignMessage")) ∧
    VerifyMessage asset s1 s2 s3 =
      (false, some (Error.ErrETHMethodNotImplemented "VerifyMessage")) ∧
    (IsWaiting asset).value = false ∧
    (IsWaiting asset).logged = Error.ErrETHMethodNotImplemented "IsWaiting" ∧
    (IsWatchingOnlyWallet asset).value = false ∧
    (IsWatchingOnlyWallet asset).logged =
      Error.ErrETHMethodNotImplemented "IsWatchingOnlyWallet" ∧
    (IsConnectedToNetwork asset).value = false ∧
    (IsConnectedToNetwork asset).logged =
      Error.ErrETHMethodNotImplemented "IsConnectedToNetwork" ∧
    (ToAmount asset n).value = none ∧
    (ToAmount asset n).logged = Error.ErrETHMethodNotImplemented "ToAmount" ∧
    (GetBestBlock asset).value = none ∧
    (GetBestBlock asset).logged = Error.ErrETHMethodNotImplemented "GetBestBlock" ∧
    (GetBestBlockHeight asset).value = -1 ∧
    (GetBestBlockHeight asset).logged =
      Error.ErrETHMethodNotImplemented "GetBestBlockHeight" ∧
    (GetBestBlockTimeStamp asset).value = -1 ∧
    (GetBestBlockTimeStamp asset).logged =
      Error.ErrETHMethodNotImplemented "GetBestBlockTimeStamp" := by
  refine ⟨rfl, rfl, rfl, rfl, rfl, rfl, rfl, rfl, rfl, rfl, rfl, rfl, rfl, rfl, rfl, rfl, rfl,
    rfl, rfl, rfl⟩

end Eth

/-! ## The accounts a recipient may receive on -/

namespace Send

/-- C29: `isAccountValid` returns false when either pointer is nil; otherwise
it returns true if and only if `account.Number` is not `MaxInt32`, is not
the mixed account number of the selected destination wallet, and the account
is not the source account (same `WalletID` and same `Number`). -/
theorem isAccountValid_spec (MaxInt32 mixedAccountNumber : Int) :
    (∀ account, isAccountValid MaxInt32 mixedAccountNumber none account = false) ∧
    (∀ sourceAccount, isAccountValid MaxInt32 mixedAccountNumber sourceAccount none = false) ∧
    (∀ sourceAccount account : Account,
      isAccountValid MaxInt32 mixedAccountNumber (some sourceAccount) (some account) = true ↔
        account.Number ≠ MaxInt32 ∧ mixedAccountNumber ≠ account.Number ∧
        ¬ (sourceAccount.WalletID = account.WalletID ∧
          account.Number = sourceAccount.Number)) := by
  refine ⟨?_, ?_, ?_⟩
  · intro account
    cases account <;> rfl
  · intro sourceAccount
    cases sourceAccount <;> rfl
  · intro sourceAccount account
    simp only [isAccountValid]
    by_cases h1 : account.Number = MaxInt32 <;>
      by_cases h2 : mixedAccountNumber = account.Number <;>
      by_cases h3 : sourceAccount.WalletID = account.WalletID <;>
      by_cases h4 : account.Number = sourceAccount.Number <;>
      simp [h1, h2, h3, h4]

end Send

/-! ## The segmented control -/

namespace Cryptomaterial

/-- C30, as stated, fails where the index wraps around: with cycling allowed, a
"next" on a control of one segment sets `changed` and leaves the index at 0,
and a "next" at the last index 2 of three segments moves the index to 0. -/
theorem handleActionEvent_wraps :
    handleActionEvent ⟨0, ["a"], false, true⟩ true = ⟨0, ["a"], true, true⟩ ∧
    handleActionEvent ⟨2, ["a", "b", "c"], false, true⟩ true =
      ⟨0, ["a", "b", "c"], true, true⟩ ∧
    handleActionEvent ⟨0, ["a", "b", "c"], false, true⟩ false =
      ⟨2, ["a", "b", "c"], true, true⟩ := by
  decide

/-- C30, amended: for every control with a non-empty segment list and
`0 ≤ selectedIndex < n`, `handleActionEvent` in either direction leaves the
index in that range, so that `SelectedSegment` finds a segment; when cycling
is not allowed, a "next" at the last index and a "previous" at index 0
change nothing; every other call sets `changed` and moves the index by
exactly one, except that with cycling allowed a "next" at the last index
goes to 0 and a "previous" at index 0 goes to the last index. -/
theorem handleActionEvent_spec (sc : SegmentedControl) (isNext : Bool)
    (h0 : 0 ≤ sc.selectedIndex)
    (hn : sc.selectedIndex < (sc.segmentTitlesTranslationKey.length : Int)) :
    (0 ≤ (handleActionEvent sc isNext).selectedIndex ∧
      (handleActionEvent sc isNext).selectedIndex <
        (sc.segmentTitlesTranslationKey.length : Int)) ∧
    (handleActionEvent sc isNext).segmentTitlesTranslationKey =
      sc.segmentTitlesTranslationKey ∧
    SelectedSegment (handleActionEvent sc isNext) ≠ none ∧
    (sc.allowCycle = false →
      sc.selectedIndex = (sc.segmentTitlesTranslationKey.length : Int) - 1 →
        handleActionEvent sc true = sc) ∧
    (sc.allowCycle = false → sc.selectedIndex = 0 → handleActionEvent sc false = sc) ∧
    (sc.selectedIndex ≠ (sc.segmentTitlesTranslationKey.length : Int) - 1 →
      (handleActionEvent sc true).selectedIndex = sc.selectedIndex + 1 ∧
      (handleActionEvent sc true).changed = true) ∧
    (sc.selectedIndex ≠ 0 →
      (handleActionEvent sc false).selectedIndex = sc.selectedIndex - 1 ∧
      (handleActionEvent sc false).changed = true) ∧
    (sc.allowCycle = true →
      sc.selectedIndex = (sc.segmentTitlesTranslationKey.length : Int) - 1 →
        (handleActionEvent sc true).selectedIndex = 0 ∧
        (handleActionEvent sc true).changed = true) ∧
    (sc.allowCycle = true → sc.selectedIndex = 0 →
      (handleActionEvent sc false).selectedIndex =
        (sc.segmentTitlesTranslationKey.length : Int) - 1 ∧
      (handleActionEvent sc false).changed = true) := by
  have hrange : 0 ≤ (handleActionEvent sc isNext).selectedIndex ∧
      (handleActionEvent sc isNext).selectedIndex <
        (sc.segmentTitlesTranslationKey.length : Int) := by
    unfold handleActionEvent
    cases isNext
    · by_cases hz : sc.selectedIndex = 0
      · cases hc : sc.allowCycle <;> simp [hz, hc] <;> omega
      · simp only [Bool.false_eq_true, if_false, if_neg hz]
        omega
    · by_cases hl : sc.selectedIndex = (sc.segmentTitlesTranslationKey.length : Int) - 1
      · cases hc : sc.allowCycle <;> simp [hl, hc] <;> omega
      · simp only [if_true, if_neg hl]
        omega
  have hkeys : (handleActionEvent sc isNext).segmentTitlesTranslationKey =
      sc.segmentTitlesTranslationKey := by
    unfold handleActionEvent
    cases isNext
    · by_cases hz : sc.selectedIndex = 0
      · cases hc : sc.allowCycle <;> simp [hz, hc]
      · simp only [Bool.false_eq_true, if_false, if_neg hz]
    · by_cases hl : sc.selectedIndex = (sc.segmentTitlesTranslationKey.length : Int) - 1
      · cases hc : sc.allowCycle <;> simp [hl, hc]
      · simp only [if_true, if_neg hl]
  refine ⟨hrange, hkeys, ?_, ?_, ?_, ?_, ?_, ?_, ?_⟩
  · unfold SelectedSegment
    rw [if_neg (by omega), hkeys]
    intro hnone
    rw [List.get?_eq_none] at hnone
    omega
  · intro hc hlast
    simp [handleActionEvent, hc, hlast]
  · intro hc hzero
    simp [handleActionEvent, hc, hzero]
  · intro hne
    simp [handleActionEvent, hne]
  · intro hne
    simp [handleActionEvent, hne]
  · intro hc hlast
    simp [handleActionEvent, hc, hlast]
  · intro hc hzero
    simp [handleActionEvent, hc, hzero]

theorem handleActionEvent_spec_witness :
    (0 ≤ (handleActionEvent ⟨1, ["a", "b", "c"], false, false⟩ true).selectedIndex ∧
      (handleActionEvent ⟨1, ["a", "b", "c"], false, false⟩ true).selectedIndex <
        ((["a", "b", "c"] : List String).length : Int)) :=
  (handleActionEvent_spec ⟨1, ["a", "b", "c"], false, false⟩ true (by decide)
    (by decide)).1

end Cryptomaterial
